import Mathlib

/-!
# Courtyard inventory-backed assignment system: a shallow embedding

This file embeds the pack-health calculator (`pack-health.ts`), the weighted
selector and the assignment orchestrator (`assignment.ts`) of the Courtyard
repository, and proves or refutes the frozen specification claims about them.

Conventions of the embedding:
* JavaScript numbers that hold integer counts (`maxSupply`, `soldCount`,
  `minCount`, availability counts) are `Int`/`Nat`; fractional quantities
  (tier `weight`, `estimatedValue`, `Math.random()` results, percentages
  before rounding) are `Rat`.
* `Infinity` (the value of `remainingPacks` for unlimited packs) is modelled
  by `Option Int` with `none` standing for `Infinity`.
* JS truthiness is translated explicitly: `pack.maxSupply ? a : b` takes the
  `b` branch both for `null` and for `0`.
* Timestamp fields (`calculatedAt`, `paidAt`, `assignedAt`, `revealedAt`) are
  omitted: no claim mentions them and they influence no control flow.
* `Math.round` on exact rationals is Mathlib's `round` (both are
  `fun x => Int.floor (x + 1/2)`); `0.2 * 100` evaluates to exactly `20` in
  IEEE doubles, so the low-stock threshold comparison is `≤ 20` on integers.
-/

namespace Courtyard

/-- Item lifecycle status (`ItemStatus` in the Prisma schema). -/
inductive ItemStatus where
  | AVAILABLE
  | RESERVED
  | ASSIGNED
  | SHIPPED
deriving DecidableEq, Repr

/-- Opening lifecycle status (`OpeningStatus`). -/
inductive OpeningStatus where
  | PENDING
  | PROCESSING
  | COMPLETED
  | REVEALED
  | FAILED
deriving DecidableEq, Repr

/-- Pack product status (`PackStatus`). -/
inductive PackStatus where
  | ACTIVE
  | OUT_OF_STOCK
  | PAUSED
deriving DecidableEq, Repr

/-- Vault holding status (`HoldingStatus`); only `HOLDING` is created here. -/
inductive HoldingStatus where
  | HOLDING
  | LISTED
  | SHIPPED
deriving DecidableEq, Repr

/-- `PackHealthStatus` from `types/index.ts`. -/
inductive PackHealthStatus where
  | SELLABLE
  | LOW_STOCK
  | OUT_OF_STOCK
deriving DecidableEq, Repr

/-- One `PackGuarantee` row joined with its tier (`include: { tier: true }`):
`tierId`, `minCount`, and the tier's `name` (used in warnings). -/
structure Guarantee where
  tierId : String
  minCount : Int
  tierName : String
deriving DecidableEq, Repr

/-- One `PackTierWeight` row joined with its tier. -/
structure TierWeight where
  tierId : String
  weight : Rat
  tierName : String
deriving DecidableEq, Repr

/-- `PackConfig` with its `guarantees` and `tierWeights` relations. -/
structure PackConfig where
  guarantees : List Guarantee
  tierWeights : List TierWeight
deriving DecidableEq, Repr

/-- `TierHealth` from `types/index.ts`. -/
structure TierHealth where
  tierId : String
  tierName : String
  available : Int
  required : Int
  healthy : Bool
  percentage : Int
deriving DecidableEq, Repr

/-- The warnings pushed by `calculatePackHealth`, as structured values rather
than interpolated strings (each constructor corresponds to one template). -/
inductive Warning where
  | noConfiguration
  | insufficientTier (tierId : String) (available required : Int)
  | lowStockTier (tierId : String) (percentage : Int)
  | emptyWeightedTier (tierId : String) (weight : Rat)
  | maxSupplyReached
deriving DecidableEq, Repr

/-- `PackHealth` from `types/index.ts` (without the `calculatedAt` timestamp). -/
structure PackHealth where
  packProductId : String
  status : PackHealthStatus
  remainingPacks : Int
  maxSupply : Option Int
  soldCount : Int
  tierHealth : List TierHealth
  canSellOne : Bool
  warnings : List Warning
deriving DecidableEq, Repr

/-- `const remainingPacks = pack.maxSupply ? pack.maxSupply - pack.soldCount
: Infinity`.  JS truthiness: `null` and `0` are both falsy, so a pack with
`maxSupply = 0` takes the `Infinity` branch.  `none` models `Infinity`. -/
def remainingPacks (maxSupply : Option Int) (soldCount : Int) : Option Int :=
  match maxSupply with
  | none => none
  | some m => if m = 0 then none else some (m - soldCount)

/-- `const requiredTotal = remainingPacks === Infinity ? guarantee.minCount
: remainingPacks * guarantee.minCount`. -/
def requiredTotal (remaining : Option Int) (minCount : Int) : Int :=
  match remaining with
  | none => minCount
  | some r => r * minCount

/-- `const healthy = available >= requiredTotal` for a guarantee. -/
def guaranteeHealthy (remaining : Option Int) (available minCount : Int) : Bool :=
  requiredTotal remaining minCount ≤ available

/-- `const percentage = requiredTotal > 0 ? Math.round((available /
requiredTotal) * 100) : 100` (the unclamped local variable). -/
def guaranteePercentage (available required : Int) : Int :=
  if 0 < required then round (((available : Rat) / (required : Rat)) * 100) else 100

/-- The `TierHealth` entry pushed for one guarantee.  The stored `required`
field's `requiredTotal === Infinity` test is dead code (`requiredTotal` is
always finite), and the stored percentage is `Math.min(percentage, 100)`. -/
def guaranteeEntry (remaining : Option Int) (avail : String → Nat)
    (g : Guarantee) : TierHealth :=
  let available : Int := (avail g.tierId : Int)
  let req := requiredTotal remaining g.minCount
  { tierId := g.tierId
    tierName := g.tierName
    available := available
    required := req
    healthy := guaranteeHealthy remaining available g.minCount
    percentage := min (guaranteePercentage available req) 100 }

/-- The warning (if any) pushed for one guarantee: `Insufficient ...` when
unhealthy, otherwise `Low stock warning ...` when the unclamped percentage is
at most `LOW_STOCK_THRESHOLD * 100 = 20`. -/
def guaranteeWarning (remaining : Option Int) (avail : String → Nat)
    (g : Guarantee) : Option Warning :=
  let available : Int := (avail g.tierId : Int)
  let req := requiredTotal remaining g.minCount
  if guaranteeHealthy remaining available g.minCount then
    if guaranteePercentage available req ≤ 20 then
      some (.lowStockTier g.tierId (guaranteePercentage available req))
    else none
  else some (.insufficientTier g.tierId available req)

/-- The tier-weight loop: for each weight `> 0` whose tier is not already in
`tierHealth`, push a soft entry (`required = 1`); an empty weighted tier only
adds a warning, never blocks the sale. -/
def addWeightEntries (avail : String → Nat) :
    List TierWeight → List TierHealth → List Warning → List TierHealth × List Warning
  | [], th, ws => (th, ws)
  | w :: rest, th, ws =>
    if 0 < w.weight then
      if th.any (fun t => t.tierId = w.tierId) then
        addWeightEntries avail rest th ws
      else
        let available : Int := (avail w.tierId : Int)
        let healthy : Bool := decide (0 < available)
        let entry : TierHealth :=
          { tierId := w.tierId
            tierName := w.tierName
            available := available
            required := 1
            healthy := healthy
            percentage := if 0 < available then 100 else 0 }
        let ws' := if healthy then ws else ws ++ [.emptyWeightedTier w.tierId w.weight]
        addWeightEntries avail rest (th ++ [entry]) ws'
    else
      addWeightEntries avail rest th ws

/-- `if (pack.maxSupply && pack.soldCount >= pack.maxSupply)` — again JS
truthiness: with `maxSupply = 0` (or `null`) the check is skipped. -/
def maxSupplyReached (maxSupply : Option Int) (soldCount : Int) : Bool :=
  match maxSupply with
  | none => false
  | some m => if m = 0 then false else decide (m ≤ soldCount)

/-- The `remainingPacks` field stored in the result:
`remainingPacks === Infinity ? -1 : remainingPacks`. -/
def remainingPacksField (remaining : Option Int) : Int :=
  match remaining with
  | none => -1
  | some r => r

/-- The cache-miss body of `calculatePackHealth` (pack-health.ts): from the
pack row's `maxSupply`, `soldCount` and `config`, and the per-tier count of
AVAILABLE pooled items (`avail`, the `tierAvailability` map whose missing
keys read as `0`), compute the `PackHealth` value. -/
def calculatePackHealthCore (packProductId : String) (maxSupply : Option Int)
    (soldCount : Int) (config : Option PackConfig) (avail : String → Nat) :
    PackHealth :=
  let remaining := remainingPacks maxSupply soldCount
  match config with
  | none =>
      { packProductId := packProductId
        status := .OUT_OF_STOCK
        remainingPacks := remainingPacksField remaining
        maxSupply := maxSupply
        soldCount := soldCount
        tierHealth := []
        canSellOne := false
        warnings := [.noConfiguration] }
  | some cfg =>
      let gEntries := cfg.guarantees.map (guaranteeEntry remaining avail)
      let gWarnings := cfg.guarantees.filterMap (guaranteeWarning remaining avail)
      let canSellGuarantees :=
        cfg.guarantees.all (fun g => guaranteeHealthy remaining ((avail g.tierId : Int)) g.minCount)
      let thws := addWeightEntries avail cfg.tierWeights gEntries gWarnings
      let reached := maxSupplyReached maxSupply soldCount
      let canSellOne := canSellGuarantees && !reached
      let warnings := if reached then thws.2 ++ [.maxSupplyReached] else thws.2
      let hasLowStock := thws.1.any (fun t => t.healthy && decide (t.percentage ≤ 20))
      let status : PackHealthStatus :=
        if !canSellOne then .OUT_OF_STOCK
        else if hasLowStock then .LOW_STOCK
        else .SELLABLE
      { packProductId := packProductId
        status := status
        remainingPacks := remainingPacksField remaining
        maxSupply := maxSupply
        soldCount := soldCount
        tierHealth := thws.1
        canSellOne := canSellOne
        warnings := warnings }

/-! ## Projections of `calculatePackHealthCore` -/

theorem canSellOne_core (pid : String) (ms : Option Int) (sc : Int)
    (cfg : PackConfig) (avail : String → Nat) :
    (calculatePackHealthCore pid ms sc (some cfg) avail).canSellOne =
      (cfg.guarantees.all
          (fun g => guaranteeHealthy (remainingPacks ms sc) ((avail g.tierId : Int)) g.minCount)
        && !maxSupplyReached ms sc) := rfl

theorem tierHealth_core (pid : String) (ms : Option Int) (sc : Int)
    (cfg : PackConfig) (avail : String → Nat) :
    (calculatePackHealthCore pid ms sc (some cfg) avail).tierHealth =
      (addWeightEntries avail cfg.tierWeights
        (cfg.guarantees.map (guaranteeEntry (remainingPacks ms sc) avail))
        (cfg.guarantees.filterMap (guaranteeWarning (remainingPacks ms sc) avail))).1 := rfl

theorem status_core (pid : String) (ms : Option Int) (sc : Int)
    (cfg : PackConfig) (avail : String → Nat) :
    (calculatePackHealthCore pid ms sc (some cfg) avail).status =
      (if !(calculatePackHealthCore pid ms sc (some cfg) avail).canSellOne then
        PackHealthStatus.OUT_OF_STOCK
      else if (calculatePackHealthCore pid ms sc (some cfg) avail).tierHealth.any
          (fun t => t.healthy && decide (t.percentage ≤ 20)) then
        PackHealthStatus.LOW_STOCK
      else PackHealthStatus.SELLABLE) := rfl

/-! ## C1: `canSellOne = true` forces every guarantee to be met -/

theorem guaranteeHealthy_of_canSellOne {pid : String} {ms : Option Int} {sc : Int}
    {cfg : PackConfig} {avail : String → Nat}
    (h : (calculatePackHealthCore pid ms sc (some cfg) avail).canSellOne = true) :
    ∀ g ∈ cfg.guarantees,
      requiredTotal (remainingPacks ms sc) g.minCount ≤ (avail g.tierId : Int) := by
  intro g hg
  rw [canSellOne_core, Bool.and_eq_true] at h
  have h2 := List.all_eq_true.mp h.1 g hg
  simpa [guaranteeHealthy] using h2

theorem reached_false_of_canSellOne {pid : String} {ms : Option Int} {sc : Int}
    {cfg : PackConfig} {avail : String → Nat}
    (h : (calculatePackHealthCore pid ms sc (some cfg) avail).canSellOne = true) :
    maxSupplyReached ms sc = false := by
  rw [canSellOne_core, Bool.and_eq_true] at h
  simpa using h.2

/-- C1.  For every pack that has a configuration, whenever the health
computation of `calculatePackHealth` reports `canSellOne = true`, every
guarantee `(tier, minCount)` is met by the current per-tier count of AVAILABLE
pooled items: at least `minCount` items when `maxSupply` is null, and at least
`(maxSupply − soldCount) * minCount` items when `maxSupply` is a finite
positive number. -/
theorem canSellOne_implies_guarantees_met (pid : String) (maxSupply : Option Int)
    (soldCount : Int) (cfg : PackConfig) (avail : String → Nat)
    (h : (calculatePackHealthCore pid maxSupply soldCount (some cfg) avail).canSellOne = true) :
    ∀ g ∈ cfg.guarantees,
      (maxSupply = none → g.minCount ≤ (avail g.tierId : Int)) ∧
      (∀ m : Int, maxSupply = some m → 0 < m →
        (m - soldCount) * g.minCount ≤ (avail g.tierId : Int)) := by
  intro g hg
  have hreq := guaranteeHealthy_of_canSellOne h g hg
  constructor
  · intro hnone
    subst hnone
    simpa [remainingPacks, requiredTotal] using hreq
  · intro m hm hmpos
    subst hm
    have hm0 : m ≠ 0 := by omega
    simpa [remainingPacks, requiredTotal, hm0] using hreq

/-- Scenario A of the spec, used as the concrete witness input for C1:
`maxSupply = 10`, `soldCount = 7`, one guarantee `(rare, minCount 1)`. -/
def cfgScenarioA : PackConfig :=
  { guarantees := [⟨"rare", 1, "Rare"⟩], tierWeights := [] }

/-- Witness availability for Scenario A: 3 rare items. -/
def availScenarioA : String → Nat := fun t => if t = "rare" then 3 else 0

theorem canSellOne_implies_guarantees_met_witness :
    ((10 : Int) - 7) * (1 : Int) ≤ ((availScenarioA "rare" : Nat) : Int) :=
  ((canSellOne_implies_guarantees_met "p1" (some 10) 7 cfgScenarioA availScenarioA
      (by decide) ⟨"rare", 1, "Rare"⟩ (by decide)).2) 10 rfl (by decide)

/-! ## C6: `maxSupply = 0` -/

/-- C6.  The claim says a pack with non-null `maxSupply` and zero remaining
supply — explicitly including `maxSupply = 0` — is reported OUT_OF_STOCK with
`canSellOne = false`.  The code evaluates `pack.maxSupply ? … : Infinity` and
`pack.maxSupply && soldCount >= maxSupply`, and `0` is falsy in JS, so a pack
with `maxSupply = 0` (zero total supply, zero remaining) is treated as
unlimited: with an empty configuration it is reported SELLABLE and sellable. -/
theorem maxSupply_zero_treated_as_unlimited :
    (calculatePackHealthCore "p" (some 0) 0 (some ⟨[], []⟩) (fun _ => 0)).canSellOne = true ∧
    (calculatePackHealthCore "p" (some 0) 0 (some ⟨[], []⟩) (fun _ => 0)).status =
      PackHealthStatus.SELLABLE := by
  exact ⟨rfl, rfl⟩

/-! ## C7: unlimited packs -/

/-- Counterexample configuration for C7: unlimited pack, one guarantee with
`minCount = 2`. -/
def cfgUnlimitedTwo : PackConfig :=
  { guarantees := [⟨"t1", 2, "T1"⟩], tierWeights := [] }

/-- Counterexample availability for C7: exactly 1 item of tier `t1`. -/
def availOne : String → Nat := fun t => if t = "t1" then 1 else 0

/-- C7 counterexample.  The claim says that for an unlimited pack the
guarantee check passes exactly when at least 1 item of the tier is available.
Here 1 item of tier `t1` is available, yet the pack is not sellable: the code
requires `available ≥ minCount` (here 2), not `available ≥ 1`. -/
theorem unlimited_guarantee_needs_minCount_cex :
    1 ≤ availOne "t1" ∧
    (calculatePackHealthCore "p" none 0 (some cfgUnlimitedTwo) availOne).canSellOne = false := by
  exact ⟨by decide, rfl⟩

/-- C7 amended.  For an unlimited pack (`maxSupply = null`) the guarantee
check passes exactly when at least `minCount` items of the tier are available
now, and the outcome is independent of `soldCount`: two runs that differ only
in `soldCount` report the same `canSellOne`. -/
theorem unlimited_guarantee_check_amended (pid : String) (soldCount : Int)
    (cfg : PackConfig) (avail : String → Nat) :
    (∀ g ∈ cfg.guarantees,
        guaranteeHealthy (remainingPacks none soldCount) ((avail g.tierId : Int)) g.minCount =
          decide (g.minCount ≤ (avail g.tierId : Int))) ∧
    (∀ soldCount' : Int,
        (calculatePackHealthCore pid none soldCount (some cfg) avail).canSellOne =
          (calculatePackHealthCore pid none soldCount' (some cfg) avail).canSellOne) := by
  constructor
  · intro g _
    rfl
  · intro soldCount'
    rfl

theorem unlimited_guarantee_check_amended_witness :
    guaranteeHealthy (remainingPacks none 0) ((availOne "t1" : Int)) 2 =
      decide ((2 : Int) ≤ (availOne "t1" : Int)) :=
  (unlimited_guarantee_check_amended "p" 0 cfgUnlimitedTwo availOne).1
    ⟨"t1", 2, "T1"⟩ (by decide)

/-! ## C9: status classification -/

theorem le_round_of_hundred_le {q : Rat} (h : (100 : Rat) ≤ q) : (100 : Int) ≤ round q := by
  rw [round_eq]
  refine Int.le_floor.mpr ?_
  push_cast
  linarith

theorem clamped_percentage_of_healthy {a r : Int} (hr : 0 ≤ r) (h : r ≤ a) :
    min (guaranteePercentage a r) 100 = 100 := by
  rcases eq_or_lt_of_le hr with hr0 | hrpos
  · simp [guaranteePercentage, ← hr0]
  · have ha : (1 : Rat) ≤ (a : Rat) / (r : Rat) := by
      rw [one_le_div (by exact_mod_cast hrpos)]
      exact_mod_cast h
    have h100 : (100 : Rat) ≤ ((a : Rat) / (r : Rat)) * 100 := by nlinarith
    have := le_round_of_hundred_le h100
    rw [guaranteePercentage, if_pos hrpos]
    omega

/-- A `TierHealth` entry that cannot trigger the low-stock branch. -/
def entryNotLow (t : TierHealth) : Prop :=
  (t.healthy && decide (t.percentage ≤ 20)) = false

theorem addWeightEntries_entryNotLow (avail : String → Nat) (ws : List TierWeight)
    (th : List TierHealth) (warn : List Warning)
    (hth : ∀ t ∈ th, entryNotLow t) :
    ∀ t ∈ (addWeightEntries avail ws th warn).1, entryNotLow t := by
  induction ws generalizing th warn with
  | nil => simpa [addWeightEntries] using hth
  | cons w rest ih =>
    rw [addWeightEntries]
    split
    · split
      · exact ih th warn hth
      · refine ih _ _ ?_
        intro t ht
        rcases List.mem_append.mp ht with h1 | h2
        · exact hth t h1
        · have ht2 : t = _ := List.mem_singleton.mp h2
          subst ht2
          by_cases hpos : (0 : Int) < (avail w.tierId : Int)
          · simp [entryNotLow, hpos]
          · simp [entryNotLow, hpos]
    · exact ih th warn hth

theorem requiredTotal_nonneg {ms : Option Int} {sc minCount : Int}
    (hreached : maxSupplyReached ms sc = false) (hmin : 0 ≤ minCount) :
    0 ≤ requiredTotal (remainingPacks ms sc) minCount := by
  match ms with
  | none => simpa [remainingPacks, requiredTotal] using hmin
  | some m =>
    by_cases hm0 : m = 0
    · simpa [remainingPacks, requiredTotal, hm0] using hmin
    · have hsc : ¬ m ≤ sc := by
        simpa [maxSupplyReached, hm0] using hreached
      have : (0 : Int) ≤ m - sc := by omega
      simp only [remainingPacks, requiredTotal, if_neg hm0]
      exact mul_nonneg this hmin

theorem guaranteeEntry_entryNotLow {remaining : Option Int} {avail : String → Nat}
    {g : Guarantee} (hreq : 0 ≤ requiredTotal remaining g.minCount) :
    entryNotLow (guaranteeEntry remaining avail g) := by
  unfold entryNotLow guaranteeEntry
  by_cases hh : guaranteeHealthy remaining ((avail g.tierId : Int)) g.minCount = true
  · have hle : requiredTotal remaining g.minCount ≤ (avail g.tierId : Int) := by
      simpa [guaranteeHealthy] using hh
    have := clamped_percentage_of_healthy hreq hle
    simp only [this]
    simp [hh]
  · simp only [Bool.not_eq_true] at hh
    simp [hh]

/-- The spec-side low-stock condition of C9: some guaranteed tier's
`available / required` ratio is at most 20%, i.e. (for positive requirement)
`5 * available ≤ required`. -/
def lowStockGuaranteeSpec (remaining : Option Int) (avail : String → Nat)
    (cfg : PackConfig) : Prop :=
  ∃ g ∈ cfg.guarantees,
    0 < requiredTotal remaining g.minCount ∧
    5 * ((avail g.tierId : Int)) ≤ requiredTotal remaining g.minCount

theorem hasLowStock_false_of_canSellOne {pid : String} {ms : Option Int} {sc : Int}
    {cfg : PackConfig} {avail : String → Nat}
    (hmin : ∀ g ∈ cfg.guarantees, 0 ≤ g.minCount)
    (hc : (calculatePackHealthCore pid ms sc (some cfg) avail).canSellOne = true) :
    (calculatePackHealthCore pid ms sc (some cfg) avail).tierHealth.any
      (fun t => t.healthy && decide (t.percentage ≤ 20)) = false := by
  have hreached := reached_false_of_canSellOne hc
  rw [tierHealth_core]
  rw [List.any_eq_false]
  intro t ht
  have hbase : ∀ t ∈ cfg.guarantees.map (guaranteeEntry (remainingPacks ms sc) avail),
      entryNotLow t := by
    intro t' ht'
    rcases List.mem_map.mp ht' with ⟨g, hg, rfl⟩
    exact guaranteeEntry_entryNotLow (requiredTotal_nonneg hreached (hmin g hg))
  have := addWeightEntries_entryNotLow avail cfg.tierWeights _ _ hbase t ht
  simpa [entryNotLow] using this

theorem not_lowStockGuaranteeSpec_of_canSellOne {pid : String} {ms : Option Int}
    {sc : Int} {cfg : PackConfig} {avail : String → Nat}
    (hc : (calculatePackHealthCore pid ms sc (some cfg) avail).canSellOne = true) :
    ¬ lowStockGuaranteeSpec (remainingPacks ms sc) avail cfg := by
  rintro ⟨g, hg, hpos, hle⟩
  have hh := guaranteeHealthy_of_canSellOne hc g hg
  have hnn : (0 : Int) ≤ (avail g.tierId : Int) := Int.ofNat_nonneg _
  omega

/-- C9.  The overall status is OUT_OF_STOCK exactly when `canSellOne` is
false; otherwise it is LOW_STOCK exactly when some guaranteed tier's
available/required ratio is at most 20% (which, when `canSellOne` holds, can
never happen — every met guarantee has ratio at least 100%), and SELLABLE in
every other case. -/
theorem health_status_classification (pid : String) (ms : Option Int) (sc : Int)
    (cfg : PackConfig) (avail : String → Nat)
    (hmin : ∀ g ∈ cfg.guarantees, 0 ≤ g.minCount) :
    ((calculatePackHealthCore pid ms sc (some cfg) avail).status =
        PackHealthStatus.OUT_OF_STOCK ↔
      (calculatePackHealthCore pid ms sc (some cfg) avail).canSellOne = false) ∧
    ((calculatePackHealthCore pid ms sc (some cfg) avail).canSellOne = true →
      (((calculatePackHealthCore pid ms sc (some cfg) avail).status =
          PackHealthStatus.LOW_STOCK ↔
        lowStockGuaranteeSpec (remainingPacks ms sc) avail cfg) ∧
      (¬ lowStockGuaranteeSpec (remainingPacks ms sc) avail cfg →
        (calculatePackHealthCore pid ms sc (some cfg) avail).status =
          PackHealthStatus.SELLABLE))) := by
  constructor
  · rw [status_core]
    cases hc : (calculatePackHealthCore pid ms sc (some cfg) avail).canSellOne
    · simp
    · simp only [Bool.not_true, Bool.false_eq_true, if_false]
      constructor
      · intro h
        split at h <;> simp_all
      · simp
  · intro hc
    have hlow := hasLowStock_false_of_canSellOne hmin hc
    have hspec := not_lowStockGuaranteeSpec_of_canSellOne hc
    have hst : (calculatePackHealthCore pid ms sc (some cfg) avail).status =
        PackHealthStatus.SELLABLE := by
      rw [status_core, hc, hlow]
      rfl
    refine ⟨?_, fun _ => hst⟩
    rw [hst]
    constructor
    · intro h
      exact absurd h (by decide)
    · intro h
      exact absurd h hspec

theorem health_status_classification_witness :
    (calculatePackHealthCore "p" (some 5) 0 (some ⟨[], []⟩) (fun _ => 0)).status =
      PackHealthStatus.SELLABLE :=
  ((health_status_classification "p" (some 5) 0 ⟨[], []⟩ (fun _ => 0)
      (by simp)).2 rfl).2 (by simp [lowStockGuaranteeSpec])

/-! ## The weighted selector (`selectItemFromPool`, assignment.ts) -/

/-- The errors thrown across `assignment.ts` and `pack-health.ts`, one
constructor per `throw new Error(...)` template (plus the modelled
uniqueness violation raised by the database). -/
inductive AssignErr where
  | openingNotFound (openingId : String)
  | openingNotProcessing (status : OpeningStatus)
  | openingAlreadyAssigned
  | packNotFound (packProductId : String)
  | packOutOfStock
  | noConfiguration
  | noAvailableItems
  | itemNoLongerAvailable (itemId : String)
  | itemNotFound (itemId : String)
  | tierNotFound (tierId : String)
  | assignmentExists
deriving DecidableEq, Repr

/-- One element of the `availableItems` query result in `selectItemFromPool`
(`select: { id, tierId, estimatedValue }`). -/
structure PoolItem where
  id : String
  tierId : String
  estimatedValue : Rat
deriving DecidableEq, Repr

/-- `itemsByTier[tid]`: the grouping loop preserves list order within a tier,
so the group equals a filter. -/
def tierItems (items : List PoolItem) (tid : String) : List PoolItem :=
  items.filter (fun it => it.tierId = tid)

/-- `items[Math.floor(r * items.length)]`; an out-of-range index reads
`undefined` in JS, modelled by `none`. -/
def uniformPick (items : List PoolItem) (r : Rat) : Option PoolItem :=
  let idx := Int.floor (r * (items.length : Rat))
  if idx < 0 then none else items.get? idx.toNat

/-- The roll loop: `cumulative += tw.weight; if (roll < cumulative) ...`. -/
def pickTier : List TierWeight → Rat → Rat → Option String
  | [], _, _ => none
  | tw :: rest, roll, cumulative =>
    if roll < cumulative + tw.weight then some tw.tierId
    else pickTier rest roll (cumulative + tw.weight)

/-- `selectItemFromPool` (assignment.ts, lines 160–244), as a pure function
of the pack `config`, the queried AVAILABLE pool, and the stream of
`Math.random()` results (`rand n` is the value of the `n`-th call). -/
def selectItemFromPool (config : Option PackConfig) (availableItems : List PoolItem)
    (rand : Nat → Rat) : Except AssignErr (Option PoolItem) :=
  match config with
  | none => .error .noConfiguration
  | some cfg =>
    if availableItems.isEmpty then .ok none
    else
      let activeWeights := cfg.tierWeights.filter
        (fun tw => decide (0 < (tierItems availableItems tw.tierId).length))
      let totalWeight := (activeWeights.map TierWeight.weight).sum
      if totalWeight = 0 ∨ activeWeights = [] then
        .ok (uniformPick availableItems (rand 0))
      else
        let roll := rand 0 * totalWeight
        match activeWeights.getLast? with
        | none =>
          -- unreachable: `activeWeights ≠ []` in this branch (JS would crash
          -- dereferencing `activeWeights[length - 1]` of an empty array)
          .ok none
        | some lastTw =>
          let selectedTierId := (pickTier activeWeights roll 0).getD lastTw.tierId
          let tItems := tierItems availableItems selectedTierId
          if tItems.isEmpty then .ok (uniformPick availableItems (rand 1))
          else .ok (uniformPick tItems (rand 1))

/-! ### Spec-side reading of the roll loop -/

/-- Cumulative weight of the tiers up to and including index `i`. -/
def cumulativeWeight (ws : List TierWeight) (i : Nat) : Rat :=
  ((ws.take (i + 1)).map TierWeight.weight).sum

/-- Spec reading: the index of the first tier in order whose cumulative
weight sum exceeds the roll. -/
def specFirstTierIdx (ws : List TierWeight) (roll : Rat) : Option Nat :=
  (List.range ws.length).find? (fun i => decide (roll < cumulativeWeight ws i))

theorem cumulativeWeight_zero (tw : TierWeight) (rest : List TierWeight) :
    cumulativeWeight (tw :: rest) 0 = tw.weight := by
  simp [cumulativeWeight]

theorem cumulativeWeight_succ (tw : TierWeight) (rest : List TierWeight) (i : Nat) :
    cumulativeWeight (tw :: rest) (i + 1) = tw.weight + cumulativeWeight rest i := by
  simp [cumulativeWeight]

theorem pickTier_go (ws : List TierWeight) (roll c : Rat) :
    pickTier ws roll c =
      ((List.range ws.length).find? (fun i => decide (roll < c + cumulativeWeight ws i))).bind
        (fun i => (ws.get? i).map TierWeight.tierId) := by
  induction ws generalizing c with
  | nil => rfl
  | cons tw rest ih =>
    rw [pickTier]
    rw [List.length_cons, List.range_succ_eq_map]
    rw [List.find?_cons]
    by_cases h0 : roll < c + cumulativeWeight (tw :: rest) 0
    · rw [cumulativeWeight_zero] at h0
      rw [if_pos h0]
      simp [cumulativeWeight_zero, h0]
    · rw [cumulativeWeight_zero] at h0
      rw [if_neg h0]
      have hd : (decide (roll < c + cumulativeWeight (tw :: rest) 0)) = false := by
        rw [cumulativeWeight_zero]
        simpa using h0
      simp only [hd]
      rw [ih (c + tw.weight)]
      rw [List.find?_map]
      rcases hf : (List.range rest.length).find?
          (fun i => decide (roll < c + tw.weight + cumulativeWeight rest i)) with _ | i
      · rw [show (List.range rest.length).find?
            ((fun i => decide (roll < c + cumulativeWeight (tw :: rest) i)) ∘ Nat.succ) = none from ?_]
        · rfl
        · rw [List.find?_eq_none] at hf ⊢
          intro i hi
          have := hf i hi
          simp only [Function.comp]
          rw [cumulativeWeight_succ]
          simpa [add_assoc] using this
      · rw [show (List.range rest.length).find?
            ((fun i => decide (roll < c + cumulativeWeight (tw :: rest) i)) ∘ Nat.succ) = some i from ?_]
        · simp
        · rw [← hf]
          congr 1
          funext j
          simp only [Function.comp]
          rw [cumulativeWeight_succ]
          rw [add_assoc]

theorem uniformPick_mem {items : List PoolItem} {r : Rat} (hne : items ≠ [])
    (h0 : 0 ≤ r) (h1 : r < 1) : ∃ x ∈ items, uniformPick items r = some x := by
  have hlen : 0 < items.length := List.length_pos.mpr hne
  have hlenQ : (0 : Rat) < (items.length : Rat) := by exact_mod_cast hlen
  have hmul0 : 0 ≤ r * (items.length : Rat) := mul_nonneg h0 (le_of_lt hlenQ)
  have hidx0 : 0 ≤ Int.floor (r * (items.length : Rat)) := Int.floor_nonneg.mpr hmul0
  have hmul1 : r * (items.length : Rat) < (items.length : Rat) := by nlinarith
  have hidx1 : Int.floor (r * (items.length : Rat)) < (items.length : Int) :=
    Int.floor_lt.mpr (by exact_mod_cast hmul1)
  have hnat : (Int.floor (r * (items.length : Rat))).toNat < items.length := by omega
  refine ⟨items.get ⟨_, hnat⟩, List.get_mem _ _ _, ?_⟩
  unfold uniformPick
  rw [if_neg (by omega)]
  exact List.get?_eq_get hnat

theorem pickTier_mem_of_some {ws : List TierWeight} {roll c : Rat} {tid : String}
    (h : pickTier ws roll c = some tid) : ∃ tw ∈ ws, tw.tierId = tid := by
  induction ws generalizing c with
  | nil => simp [pickTier] at h
  | cons tw rest ih =>
    rw [pickTier] at h
    split at h
    · exact ⟨tw, List.mem_cons_self _ _, Option.some.inj h⟩
    · rcases ih h with ⟨tw', htw', heq⟩
      exact ⟨tw', List.mem_cons_of_mem _ htw', heq⟩

theorem tierItems_sublist_mem {items : List PoolItem} {tid : String} {x : PoolItem}
    (h : x ∈ tierItems items tid) : x ∈ items :=
  List.mem_of_mem_filter h

/-- C8.  For every pack with a configuration, the selector: returns `null`
exactly when the pool is empty; otherwise always returns an item of the pool;
when the total weight over tiers with at least one available item is `0` it
draws uniformly from the whole pool; and the roll walk selects the first tier
in configured order whose cumulative weight exceeds the roll (the
`specFirstTierIdx` reading).  A missing configuration is a configuration
error. -/
theorem selectItemFromPool_spec (cfg : PackConfig) (pool : List PoolItem)
    (rand : Nat → Rat) (hr : ∀ n, 0 ≤ rand n ∧ rand n < 1) :
    (selectItemFromPool none pool rand = .error .noConfiguration) ∧
    (pool = [] → selectItemFromPool (some cfg) pool rand = .ok none) ∧
    (pool ≠ [] → ∃ it ∈ pool, selectItemFromPool (some cfg) pool rand = .ok (some it)) ∧
    (∀ ws : List TierWeight, ∀ roll : Rat,
      pickTier ws roll 0 =
        (specFirstTierIdx ws roll).bind (fun i => (ws.get? i).map TierWeight.tierId)) ∧
    (((cfg.tierWeights.filter
          (fun tw => decide (0 < (tierItems pool tw.tierId).length))).map
            TierWeight.weight).sum = 0 → pool ≠ [] →
      selectItemFromPool (some cfg) pool rand = .ok (uniformPick pool (rand 0))) := by
  refine ⟨rfl, ?_, ?_, ?_, ?_⟩
  · intro hpool
    subst hpool
    rfl
  · intro hpool
    rw [selectItemFromPool]
    rw [if_neg (by simpa [List.isEmpty_iff] using hpool)]
    set activeWeights := cfg.tierWeights.filter
      (fun tw => decide (0 < (tierItems pool tw.tierId).length)) with hactive
    by_cases hzero : (activeWeights.map TierWeight.weight).sum = 0 ∨ activeWeights = []
    · rw [if_pos hzero]
      rcases uniformPick_mem hpool (hr 0).1 (hr 0).2 with ⟨x, hx, hpick⟩
      exact ⟨x, hx, by rw [hpick]⟩
    · rw [if_neg hzero]
      push_neg at hzero
      rcases hlast : activeWeights.getLast? with _ | lastTw
      · exact absurd (List.getLast?_eq_none_iff.mp hlast) hzero.2
      · have hlastmem : lastTw ∈ activeWeights := by
          rcases List.mem_getLast?_eq_getLast (Option.mem_def.mpr hlast) with ⟨hnil, hEq⟩
          exact hEq ▸ List.getLast_mem hnil
        set roll := rand 0 * (activeWeights.map TierWeight.weight).sum with hroll
        have htid : ∃ tw ∈ activeWeights,
            tw.tierId = (pickTier activeWeights roll 0).getD lastTw.tierId := by
          rcases hp : pickTier activeWeights roll 0 with _ | tid
          · exact ⟨lastTw, hlastmem, by simp⟩
          · rcases pickTier_mem_of_some hp with ⟨tw, htw, heq⟩
            exact ⟨tw, htw, by simp [heq]⟩
        rcases htid with ⟨tw, htw, heq⟩
        have hlen : 0 < (tierItems pool tw.tierId).length := by
          have := List.of_mem_filter htw
          simpa using this
        have hne : tierItems pool ((pickTier activeWeights roll 0).getD lastTw.tierId) ≠ [] := by
          rw [← heq]
          exact List.ne_nil_of_length_pos hlen
        dsimp only
        rw [if_neg (by simpa [List.isEmpty_iff] using hne)]
        rcases uniformPick_mem hne (hr 1).1 (hr 1).2 with ⟨x, hx, hpick⟩
        exact ⟨x, tierItems_sublist_mem hx, by rw [hpick]⟩
  · intro ws roll
    rw [pickTier_go]
    simp [specFirstTierIdx]
  · intro hzero hpool
    rw [selectItemFromPool]
    rw [if_neg (by simpa [List.isEmpty_iff] using hpool)]
    rw [if_pos (Or.inl hzero)]

theorem selectItemFromPool_spec_witness :
    selectItemFromPool (some cfgScenarioA) [] (fun _ => 0) = .ok none :=
  (selectItemFromPool_spec cfgScenarioA [] (fun _ => 0)
      (fun _ => ⟨le_rfl, by norm_num⟩)).2.1 rfl

/-! ## The ledger state and the stateful operations -/

/-- An `ItemTier` row (only the fields read here). -/
structure TierRow where
  id : String
  name : String
deriving DecidableEq, Repr

/-- An `Item` row (fields read by the assignment engine). -/
structure ItemRow where
  id : String
  tierId : String
  status : ItemStatus
  estimatedValue : Rat
deriving DecidableEq, Repr

/-- A `PackProduct` row with its `config` and its `packPoolItems` relation
(the many-to-many pool, as the list of pooled item ids). -/
structure PackRow where
  id : String
  maxSupply : Option Int
  soldCount : Int
  status : PackStatus
  config : Option PackConfig
  poolItemIds : List String
deriving DecidableEq, Repr

/-- A `PackOpening` row (without timestamps). -/
structure OpeningRow where
  id : String
  userId : String
  packProductId : String
  status : OpeningStatus
deriving DecidableEq, Repr

/-- An `Assignment` row.  The database-generated id is modelled as a function
of the opening id (ids are opaque; no claim depends on their shape). -/
structure AssignmentRow where
  id : String
  openingId : String
  itemId : String
  valueAtAssignment : Rat
  tierAtAssignment : String
deriving DecidableEq, Repr

/-- A `VaultHolding` row. -/
structure HoldingRow where
  userId : String
  itemId : String
  assignmentId : String
  status : HoldingStatus
deriving DecidableEq, Repr

/-- One Redis `reservation:{sessionId}` entry: the JSON payload
`{ itemId, packProductId }` keyed by session id. -/
structure Reservation where
  sessionId : String
  itemId : String
  packProductId : String
deriving DecidableEq, Repr

/-- The shared state: the transactional ledger plus the Redis cache keys used
here (health cache entries and checkout reservations).  Lock records are not
modelled: operations are serialized at operation granularity, which is what
the pack lock plus single-row transactions provide for the properties under
study. -/
structure St where
  tiers : List TierRow
  items : List ItemRow
  packs : List PackRow
  openings : List OpeningRow
  assignments : List AssignmentRow
  holdings : List HoldingRow
  reservations : List Reservation
  healthCache : List (String × PackHealth)
deriving DecidableEq, Repr

def findOpening (s : St) (openingId : String) : Option OpeningRow :=
  s.openings.find? (fun o => o.id = openingId)

def findPack (s : St) (packProductId : String) : Option PackRow :=
  s.packs.find? (fun p => p.id = packProductId)

def findItem (s : St) (itemId : String) : Option ItemRow :=
  s.items.find? (fun it => it.id = itemId)

def findTier (s : St) (tierId : String) : Option TierRow :=
  s.tiers.find? (fun t => t.id = tierId)

def updateItemStatus (s : St) (itemId : String) (st : ItemStatus) : St :=
  { s with items := s.items.map (fun it => if it.id = itemId then { it with status := st } else it) }

def updateOpeningStatus (s : St) (openingId : String) (st : OpeningStatus) : St :=
  { s with openings :=
      s.openings.map (fun o => if o.id = openingId then { o with status := st } else o) }

def incSoldCount (s : St) (packProductId : String) : St :=
  { s with packs :=
      s.packs.map (fun p => if p.id = packProductId then { p with soldCount := p.soldCount + 1 } else p) }

def setPackStatus (s : St) (packProductId : String) (st : PackStatus) : St :=
  { s with packs :=
      s.packs.map (fun p => if p.id = packProductId then { p with status := st } else p) }

/-- Whether an item belongs to a pack's pool
(`packPoolItems: { some: { packProductId } }`). -/
def inPool (s : St) (packProductId itemId : String) : Bool :=
  s.packs.any (fun p => p.id = packProductId && itemId ∈ p.poolItemIds)

/-- The `prisma.item.groupBy` count: AVAILABLE items of tier `tierId` pooled
in the pack.  Looking the resulting map up with default `0` equals this
direct count. -/
def availableInPool (s : St) (packProductId tierId : String) : Nat :=
  (s.items.filter (fun it =>
    inPool s packProductId it.id && it.tierId = tierId && it.status = ItemStatus.AVAILABLE)).length

/-- The `availableItems` query of `selectItemFromPool`: AVAILABLE pooled
items, projected to `{ id, tierId, estimatedValue }`. -/
def availablePoolItems (s : St) (packProductId : String) : List PoolItem :=
  (s.items.filter (fun it =>
    inPool s packProductId it.id && it.status = ItemStatus.AVAILABLE)).map
    (fun it => { id := it.id, tierId := it.tierId, estimatedValue := it.estimatedValue })

/-- `pack_health:{packProductId}`, the health cache key. -/
def healthCacheKey (packProductId : String) : String :=
  String.append "pack_health:" packProductId

/-- `cacheGet` on the health cache. -/
def cacheGetHealth (s : St) (packProductId : String) : Option PackHealth :=
  (s.healthCache.find? (fun e => e.1 = healthCacheKey packProductId)).map (fun e => e.2)

/-- `cacheSet` on the health cache (TTL not modelled; see `expireHealthCache`). -/
def cacheSetHealth (s : St) (packProductId : String) (h : PackHealth) : St :=
  { s with healthCache :=
      (healthCacheKey packProductId, h) ::
        s.healthCache.filter (fun e => !(e.1 = healthCacheKey packProductId)) }

/-- `invalidatePackHealth`: `cacheDelete` of the pack's health key. -/
def invalidatePackHealth (s : St) (packProductId : String) : St :=
  { s with healthCache :=
      s.healthCache.filter (fun e => !(e.1 = healthCacheKey packProductId)) }

/-- `invalidatePackHealthForItem`: delete the health key of every pack whose
pool contains the item (the `packPoolItem.findMany` rows). -/
def invalidatePackHealthForItem (s : St) (itemId : String) : St :=
  (s.packs.filter (fun p => itemId ∈ p.poolItemIds)).foldl
    (fun acc p => invalidatePackHealth acc p.id) s

/-- `calculatePackHealth(packProductId)`: serve from cache when present,
otherwise compute from the live ledger and cache the result.  Every operation
returns its result together with the successor state. -/
def calculatePackHealth (s : St) (packProductId : String) :
    Except AssignErr PackHealth × St :=
  match cacheGetHealth s packProductId with
  | some h => (.ok h, s)
  | none =>
    match findPack s packProductId with
    | none => (.error (.packNotFound packProductId), s)
    | some pack =>
      let h := calculatePackHealthCore packProductId pack.maxSupply pack.soldCount
        pack.config (availableInPool s packProductId)
      (.ok h, cacheSetHealth s packProductId h)

/-- `canSellPack(packProductId) = calculatePackHealth(...).canSellOne`. -/
def canSellPack (s : St) (packProductId : String) : Except AssignErr Bool × St :=
  match calculatePackHealth s packProductId with
  | (.ok h, s') => (.ok h.canSellOne, s')
  | (.error e, s') => (.error e, s')

/-- `updatePackStatusFromHealth`: recompute health and downgrade an ACTIVE
pack to OUT_OF_STOCK when it can no longer sell (downgrade only). -/
def updatePackStatusFromHealth (s : St) (packProductId : String) :
    Except AssignErr PackStatus × St :=
  match calculatePackHealth s packProductId with
  | (.error e, s') => (.error e, s')
  | (.ok h, s') =>
    match findPack s' packProductId with
    | none => (.error (.packNotFound packProductId), s')
    | some pack =>
      if pack.status = PackStatus.ACTIVE ∧ h.canSellOne = false then
        (.ok PackStatus.OUT_OF_STOCK, setPackStatus s' packProductId PackStatus.OUT_OF_STOCK)
      else
        (.ok pack.status, s')

/-- The value returned by a successful `assignItemToOpening`. -/
structure PackOpeningResult where
  openingId : String
  itemId : String
  assignmentId : String
  tierName : String
  estimatedValue : Rat
deriving DecidableEq, Repr

/-- The `prisma.$transaction` body of `assignItemToOpening`: re-read the
candidate item and assert it is still AVAILABLE, flip it to ASSIGNED, create
the Assignment (snapshotting tier name and value), create the VaultHolding,
mark the Opening COMPLETED, increment the pack's `soldCount`.  An error means
the whole transaction rolls back: the caller keeps the pre-transaction state.

Modelled from the spec: the Prisma schema is not part of the sources; the
1:1 `Opening ↔ Assignment` relation it declares (the spec's "Assignment
creation is exactly-once per completed Opening", and `opening.assignment`
being a single object) makes a second `assignment.create` for the same
opening fail the unique constraint, aborting the transaction. -/
def assignTx (s : St) (opening : OpeningRow) (packProductId selectedId : String) :
    Except AssignErr (St × PackOpeningResult) :=
  match findItem s selectedId with
  | none => .error (.itemNoLongerAvailable selectedId)
  | some item =>
    if item.status = ItemStatus.AVAILABLE then
      match findTier s item.tierId with
      | none => .error (.tierNotFound item.tierId)
      | some tier =>
        let s1 := updateItemStatus s item.id ItemStatus.ASSIGNED
        if s1.assignments.any (fun a => a.openingId = opening.id) then
          .error .assignmentExists
        else
          let asg : AssignmentRow :=
            { id := String.append "asg-" opening.id
              openingId := opening.id
              itemId := item.id
              valueAtAssignment := item.estimatedValue
              tierAtAssignment := tier.name }
          let s2 := { s1 with assignments := asg :: s1.assignments }
          let s3 := { s2 with holdings :=
            { userId := opening.userId
              itemId := item.id
              assignmentId := asg.id
              status := HoldingStatus.HOLDING } :: s2.holdings }
          let s4 := updateOpeningStatus s3 opening.id OpeningStatus.COMPLETED
          let s5 := incSoldCount s4 packProductId
          .ok (s5, { openingId := opening.id
                     itemId := item.id
                     assignmentId := asg.id
                     tierName := tier.name
                     estimatedValue := item.estimatedValue })
    else .error (.itemNoLongerAvailable selectedId)

/-- `assignItemToOpening(openingId)` (assignment.ts, lines 34–155).

Preconditions before the lock: the opening exists and is PROCESSING.  The
source also guards `if (opening.assignment) throw`, but the `findUnique`
include loads `packProduct` only — `opening.assignment` is `undefined` there,
so the guard never fires; the embedding keeps it on the loaded (absent)
field.

The body then runs under `withLock`, which serializes concurrent callers on
the same pack and always releases (`try/finally`); operations here are
whole-operation atomic, so the lock bookkeeping itself is not modelled. -/
def assignItemToOpening (s : St) (openingId : String) (rand : Nat → Rat) :
    Except AssignErr PackOpeningResult × St :=
  match findOpening s openingId with
  | none => (.error (.openingNotFound openingId), s)
  | some opening =>
    if opening.status = OpeningStatus.PROCESSING then
      -- `opening.assignment` was not included in the query: always `undefined`
      let loadedAssignment : Option AssignmentRow := none
      if loadedAssignment.isSome then (.error .openingAlreadyAssigned, s)
      else
        match findPack s opening.packProductId with
        | none => (.error (.packNotFound opening.packProductId), s)
        | some pack =>
          match canSellPack s pack.id with
          | (.error e, s1) => (.error e, s1)
          | (.ok canSell, s1) =>
            if canSell then
              match selectItemFromPool pack.config (availablePoolItems s1 pack.id) rand with
              | .error e => (.error e, s1)
              | .ok none => (.error .noAvailableItems, s1)
              | .ok (some selectedItem) =>
                match assignTx s1 opening pack.id selectedItem.id with
                | .error e => (.error e, s1)
                | .ok (s2, result) =>
                  let s3 := invalidatePackHealth s2 pack.id
                  let s4 := invalidatePackHealthForItem s3 selectedItem.id
                  match updatePackStatusFromHealth s4 pack.id with
                  | (.error e, s5) => (.error e, s5)
                  | (.ok _, s5) => (.ok result, s5)
            else (.error .packOutOfStock, s1)
    else (.error (.openingNotProcessing opening.status), s)

/-- `reserveItemForCheckout(packProductId, sessionId, ttl)`: under the
pack-scoped reserve lock, flip the first AVAILABLE pooled item to RESERVED
and write the reservation under `reservation:{sessionId}` (`redis.set`
overwrites any previous value under that key). -/
def reserveItemForCheckout (s : St) (packProductId sessionId : String) :
    Except AssignErr (Option String) × St :=
  match s.items.find? (fun it =>
      inPool s packProductId it.id && it.status = ItemStatus.AVAILABLE) with
  | none => (.ok none, s)
  | some item =>
    let s1 := updateItemStatus s item.id ItemStatus.RESERVED
    let s2 := { s1 with reservations :=
      { sessionId := sessionId, itemId := item.id, packProductId := packProductId } ::
        s1.reservations.filter (fun r => !(r.sessionId = sessionId)) }
    (.ok (some item.id), s2)

/-- `releaseReservation(sessionId)`: read the reservation, flip the item back
to AVAILABLE, delete the reservation, invalidate the pack's health cache.
`prisma.item.update` on a missing row throws (before the Redis delete). -/
def releaseReservation (s : St) (sessionId : String) : Except AssignErr Unit × St :=
  match s.reservations.find? (fun r => r.sessionId = sessionId) with
  | none => (.ok (), s)
  | some r =>
    match findItem s r.itemId with
    | none => (.error (.itemNotFound r.itemId), s)
    | some _ =>
      let s1 := updateItemStatus s r.itemId ItemStatus.AVAILABLE
      let s2 := { s1 with reservations :=
        s1.reservations.filter (fun q => !(q.sessionId = sessionId)) }
      let s3 := invalidatePackHealth s2 r.packProductId
      (.ok (), s3)

/-- `handlePaymentConfirmed(openingId)`: unconditionally update the opening
to PROCESSING (`prisma.packOpening.update` throws only when the row is
missing), then assign.  The PROCESSING write persists even when the
assignment afterwards fails — it is not inside the transaction. -/
def handlePaymentConfirmed (s : St) (openingId : String) (rand : Nat → Rat) :
    Except AssignErr PackOpeningResult × St :=
  match findOpening s openingId with
  | none => (.error (.openingNotFound openingId), s)
  | some _ =>
    let s1 := updateOpeningStatus s openingId OpeningStatus.PROCESSING
    assignItemToOpening s1 openingId rand

/-- `handlePaymentFailed(openingId)`: unconditionally set FAILED. -/
def handlePaymentFailed (s : St) (openingId : String) : Except AssignErr Unit × St :=
  match findOpening s openingId with
  | none => (.error (.openingNotFound openingId), s)
  | some _ => (.ok (), updateOpeningStatus s openingId OpeningStatus.FAILED)

/-- `markOpeningRevealed(openingId)`: unconditionally set REVEALED. -/
def markOpeningRevealed (s : St) (openingId : String) : Except AssignErr Unit × St :=
  match findOpening s openingId with
  | none => (.error (.openingNotFound openingId), s)
  | some _ => (.ok (), updateOpeningStatus s openingId OpeningStatus.REVEALED)

/-- Environment step: a Redis reservation key reaching its TTL disappears. -/
def expireReservation (s : St) (sessionId : String) : St :=
  { s with reservations := s.reservations.filter (fun r => !(r.sessionId = sessionId)) }

/-- Environment step: a health cache entry reaching its TTL disappears. -/
def expireHealthCache (s : St) (packProductId : String) : St :=
  invalidatePackHealth s packProductId

/-! ## Ledger preservation infrastructure -/

/-- Two states agree on every ledger table and on the reservations (they may
differ in the health cache). -/
def EqLedger (s t : St) : Prop :=
  s.items = t.items ∧ s.packs = t.packs ∧ s.openings = t.openings ∧
  s.assignments = t.assignments ∧ s.holdings = t.holdings ∧ s.reservations = t.reservations

theorem eqLedger_refl (s : St) : EqLedger s s := ⟨rfl, rfl, rfl, rfl, rfl, rfl⟩

theorem eqLedger_trans {s t u : St} (h1 : EqLedger s t) (h2 : EqLedger t u) : EqLedger s u := by
  obtain ⟨a1, a2, a3, a4, a5, a6⟩ := h1
  obtain ⟨b1, b2, b3, b4, b5, b6⟩ := h2
  exact ⟨a1.trans b1, a2.trans b2, a3.trans b3, a4.trans b4, a5.trans b5, a6.trans b6⟩

theorem cacheSetHealth_eqLedger (s : St) (pid : String) (h : PackHealth) :
    EqLedger (cacheSetHealth s pid h) s := ⟨rfl, rfl, rfl, rfl, rfl, rfl⟩

theorem invalidatePackHealth_eqLedger (s : St) (pid : String) :
    EqLedger (invalidatePackHealth s pid) s := ⟨rfl, rfl, rfl, rfl, rfl, rfl⟩

theorem foldl_invalidate_eqLedger (l : List PackRow) (s : St) :
    EqLedger (l.foldl (fun acc p => invalidatePackHealth acc p.id) s) s := by
  induction l generalizing s with
  | nil => exact eqLedger_refl s
  | cons p rest ih =>
    exact eqLedger_trans (ih (invalidatePackHealth s p.id)) (invalidatePackHealth_eqLedger s p.id)

theorem invalidatePackHealthForItem_eqLedger (s : St) (iid : String) :
    EqLedger (invalidatePackHealthForItem s iid) s :=
  foldl_invalidate_eqLedger _ s

theorem calculatePackHealth_snd_eqLedger (s : St) (pid : String) :
    EqLedger (calculatePackHealth s pid).2 s := by
  unfold calculatePackHealth
  split
  · exact eqLedger_refl s
  · split
    · exact eqLedger_refl s
    · exact cacheSetHealth_eqLedger s pid _

theorem canSellPack_snd_eq (s : St) (pid : String) :
    (canSellPack s pid).2 = (calculatePackHealth s pid).2 := by
  unfold canSellPack
  rcases h : calculatePackHealth s pid with ⟨r, s'⟩
  cases r <;> simp

theorem canSellPack_snd_eqLedger (s : St) (pid : String) :
    EqLedger (canSellPack s pid).2 s := by
  rw [canSellPack_snd_eq]
  exact calculatePackHealth_snd_eqLedger s pid

/-! ## Error shapes -/

theorem calculatePackHealth_error_shape {s : St} {pid : String} {e : AssignErr}
    (h : (calculatePackHealth s pid).1 = .error e) : e = .packNotFound pid := by
  unfold calculatePackHealth at h
  split at h
  · simp at h
  · split at h
    · simp only [Except.error.injEq] at h
      exact h.symm
    · simp at h

theorem canSellPack_error_shape {s : St} {pid : String} {e : AssignErr}
    (h : (canSellPack s pid).1 = .error e) : e = .packNotFound pid := by
  unfold canSellPack at h
  rcases h2 : calculatePackHealth s pid with ⟨r, s'⟩
  rw [h2] at h
  cases r with
  | ok v => simp at h
  | error e' =>
    simp only [Except.error.injEq] at h
    subst h
    exact calculatePackHealth_error_shape (by rw [h2])

theorem updatePackStatusFromHealth_error_shape {s : St} {pid : String} {e : AssignErr}
    (h : (updatePackStatusFromHealth s pid).1 = .error e) : e = .packNotFound pid := by
  unfold updatePackStatusFromHealth at h
  rcases h2 : calculatePackHealth s pid with ⟨r, s'⟩
  rw [h2] at h
  cases r with
  | error e' =>
    simp only [Except.error.injEq] at h
    subst h
    exact calculatePackHealth_error_shape (by rw [h2])
  | ok v =>
    dsimp only at h
    split at h
    · simp only [Except.error.injEq] at h
      exact h.symm
    · split at h <;> simp at h

theorem selectItemFromPool_error_shape {config : Option PackConfig}
    {pool : List PoolItem} {rand : Nat → Rat} {e : AssignErr}
    (h : selectItemFromPool config pool rand = .error e) : e = .noConfiguration := by
  unfold selectItemFromPool at h
  split at h
  · simp only [Except.error.injEq] at h
    exact h.symm
  · split at h
    · simp at h
    · dsimp only at h
      split at h
      · simp at h
      · split at h
        · simp at h
        · split at h <;> simp at h

theorem assignTx_error_shape {s : St} {opening : OpeningRow} {pid sel : String}
    {e : AssignErr} (h : assignTx s opening pid sel = .error e) :
    (∃ iid, e = .itemNoLongerAvailable iid) ∨ (∃ tid, e = .tierNotFound tid) ∨
      e = .assignmentExists := by
  unfold assignTx at h
  split at h
  · simp only [Except.error.injEq] at h
    exact Or.inl ⟨_, h.symm⟩
  · split at h
    · split at h
      · simp only [Except.error.injEq] at h
        exact Or.inr (Or.inl ⟨_, h.symm⟩)
      · dsimp only at h
        split at h
        · simp only [Except.error.injEq] at h
          exact Or.inr (Or.inr h.symm)
        · simp at h
    · simp only [Except.error.injEq] at h
      exact Or.inl ⟨_, h.symm⟩

/-! ## How the operations move Opening statuses (C10) -/

/-- States agreeing on everything except `packs` and `healthCache`. -/
def EqNonPack (s t : St) : Prop :=
  s.items = t.items ∧ s.openings = t.openings ∧ s.assignments = t.assignments ∧
  s.holdings = t.holdings ∧ s.reservations = t.reservations

theorem eqLedger_eqNonPack {s t : St} (h : EqLedger s t) : EqNonPack s t :=
  ⟨h.1, h.2.2.1, h.2.2.2.1, h.2.2.2.2.1, h.2.2.2.2.2⟩

theorem eqNonPack_trans {s t u : St} (h1 : EqNonPack s t) (h2 : EqNonPack t u) :
    EqNonPack s u := by
  obtain ⟨a1, a2, a3, a4, a5⟩ := h1
  obtain ⟨b1, b2, b3, b4, b5⟩ := h2
  exact ⟨a1.trans b1, a2.trans b2, a3.trans b3, a4.trans b4, a5.trans b5⟩

theorem setPackStatus_eqNonPack (s : St) (pid : String) (st : PackStatus) :
    EqNonPack (setPackStatus s pid st) s := ⟨rfl, rfl, rfl, rfl, rfl⟩

theorem updatePackStatusFromHealth_snd_eqNonPack_aux {s : St} {pid : String}
    {p : Except AssignErr PackStatus × St} (h : updatePackStatusFromHealth s pid = p) :
    EqNonPack p.2 s := by
  unfold updatePackStatusFromHealth at h
  split at h
  · rename_i e s' h2
    rw [← h]
    have := calculatePackHealth_snd_eqLedger s pid
    rw [h2] at this
    exact eqLedger_eqNonPack this
  · rename_i v s' h2
    have hs' : EqNonPack s' s := by
      have := calculatePackHealth_snd_eqLedger s pid
      rw [h2] at this
      exact eqLedger_eqNonPack this
    split at h
    · rw [← h]
      exact hs'
    · split at h
      · rw [← h]
        exact eqNonPack_trans (setPackStatus_eqNonPack s' pid _) hs'
      · rw [← h]
        exact hs'

theorem updatePackStatusFromHealth_snd_eqNonPack (s : St) (pid : String) :
    EqNonPack (updatePackStatusFromHealth s pid).2 s :=
  updatePackStatusFromHealth_snd_eqNonPack_aux rfl

theorem assignTx_ok_openings {s : St} {opening : OpeningRow} {pid sel : String}
    {s' : St} {res : PackOpeningResult}
    (h : assignTx s opening pid sel = .ok (s', res)) :
    s'.openings = s.openings.map
      (fun o => if o.id = opening.id then { o with status := OpeningStatus.COMPLETED } else o) := by
  unfold assignTx at h
  split at h
  · exact absurd h (by simp)
  · split at h
    · split at h
      · exact absurd h (by simp)
      · dsimp only at h
        split at h
        · exact absurd h (by simp)
        · simp only [Except.ok.injEq, Prod.mk.injEq] at h
          rw [← h.1]
          rfl
    · exact absurd h (by simp)

theorem assignItemToOpening_openings_aux {s : St} {oid : String} {rand : Nat → Rat}
    {p : Except AssignErr PackOpeningResult × St} (h : assignItemToOpening s oid rand = p) :
    p.2.openings = s.openings ∨
    ∃ opening, findOpening s oid = some opening ∧ opening.status = OpeningStatus.PROCESSING ∧
      p.2.openings =
        s.openings.map
          (fun o => if o.id = opening.id then { o with status := OpeningStatus.COMPLETED } else o) := by
  unfold assignItemToOpening at h
  split at h
  · exact Or.inl (by rw [← h])
  · rename_i _ opening hfind
    split at h
    · rename_i hstat
      split at h
      · exact Or.inl (by rw [← h]; rfl)
      · rename_i _ pack hpack
        split at h
        · rename_i _ e s1 hcs
          have hs1 : s1.openings = s.openings := by
            have := canSellPack_snd_eqLedger s pack.id
            rw [hcs] at this
            exact this.2.2.1
          exact Or.inl (by rw [← h]; exact hs1)
        · rename_i _ canSell s1 hcs
          have hs1 : s1.openings = s.openings := by
            have := canSellPack_snd_eqLedger s pack.id
            rw [hcs] at this
            exact this.2.2.1
          split at h
          · split at h
            · exact Or.inl (by rw [← h]; exact hs1)
            · exact Or.inl (by rw [← h]; exact hs1)
            · rename_i _ selectedItem hsel
              split at h
              · exact Or.inl (by rw [← h]; exact hs1)
              · rename_i _ s2 result htx
                have hs2 : s2.openings = s.openings.map
                    (fun o => if o.id = opening.id then
                      { o with status := OpeningStatus.COMPLETED } else o) := by
                  rw [assignTx_ok_openings htx, hs1]
                have hs4 : (invalidatePackHealthForItem (invalidatePackHealth s2 pack.id)
                    selectedItem.id).openings = s2.openings :=
                  (invalidatePackHealthForItem_eqLedger _ _).2.2.1
                refine Or.inr ⟨opening, hfind, hstat, ?_⟩
                dsimp only at h
                split at h
                · rename_i hup
                  exact absurd hup (by simp)
                · split at h
                  · rename_i _ e5 s5 hup
                    have hs5 : s5.openings =
                        (invalidatePackHealthForItem (invalidatePackHealth s2 pack.id)
                          selectedItem.id).openings := by
                      have := updatePackStatusFromHealth_snd_eqNonPack
                        (invalidatePackHealthForItem (invalidatePackHealth s2 pack.id)
                          selectedItem.id) pack.id
                      rw [hup] at this
                      exact this.2.1
                    rw [← h]
                    exact (hs5.trans hs4).trans hs2
                  · rename_i _ v5 s5 hup
                    have hs5 : s5.openings =
                        (invalidatePackHealthForItem (invalidatePackHealth s2 pack.id)
                          selectedItem.id).openings := by
                      have := updatePackStatusFromHealth_snd_eqNonPack
                        (invalidatePackHealthForItem (invalidatePackHealth s2 pack.id)
                          selectedItem.id) pack.id
                      rw [hup] at this
                      exact this.2.1
                    rw [← h]
                    exact (hs5.trans hs4).trans hs2
          · exact Or.inl (by rw [← h]; exact hs1)
    · exact Or.inl (by rw [← h])

theorem assignItemToOpening_openings (s : St) (oid : String) (rand : Nat → Rat) :
    (assignItemToOpening s oid rand).2.openings = s.openings ∨
    ∃ opening, findOpening s oid = some opening ∧ opening.status = OpeningStatus.PROCESSING ∧
      (assignItemToOpening s oid rand).2.openings =
        s.openings.map
          (fun o => if o.id = opening.id then { o with status := OpeningStatus.COMPLETED } else o) :=
  assignItemToOpening_openings_aux rfl

theorem openingRow_eq_of_pairwise_ids {l : List OpeningRow}
    (hp : l.Pairwise (fun a b => a.id ≠ b.id)) {a b : OpeningRow}
    (ha : a ∈ l) (hb : b ∈ l) (hid : a.id = b.id) : a = b := by
  by_contra hne
  exact (hp.forall (fun x y hxy => fun e => hxy e.symm) ha hb hne) hid

/-- C10 counterexample.  `markOpeningRevealed` on a FAILED opening performs
the transition FAILED → REVEALED, which the state machine does not allow
(REVEALED may only follow COMPLETED): the thin entry points update the status
unconditionally. -/
def stFailedOpening : St :=
  { tiers := [], items := [], packs := [],
    openings := [{ id := "o2", userId := "u1", packProductId := "p1",
                   status := OpeningStatus.FAILED }],
    assignments := [], holdings := [], reservations := [], healthCache := [] }

theorem markOpeningRevealed_from_failed_cex :
    (findOpening stFailedOpening "o2").map OpeningRow.status = some OpeningStatus.FAILED ∧
    (((markOpeningRevealed stFailedOpening "o2").2.openings.find?
        (fun o => o.id = "o2")).map OpeningRow.status) = some OpeningStatus.REVEALED := by
  exact ⟨rfl, rfl⟩

/-- C10 amended.  `assignItemToOpening` changes an Opening's status only
along PROCESSING → COMPLETED; but `markOpeningRevealed`, `handlePaymentFailed`
and `handlePaymentConfirmed` set REVEALED, FAILED and PROCESSING (the latter
then possibly COMPLETED via the assignment) unconditionally, whatever the
prior status, so invoked out of order they perform transitions outside the
machine. -/
theorem opening_transitions_amended :
    (∀ (s : St) (oid : String) (rand : Nat → Rat),
        s.openings.Pairwise (fun a b => a.id ≠ b.id) →
        ∀ o ∈ s.openings, ∀ o' ∈ (assignItemToOpening s oid rand).2.openings,
          o'.id = o.id →
          o'.status = o.status ∨
            (o.status = OpeningStatus.PROCESSING ∧ o'.status = OpeningStatus.COMPLETED)) ∧
    (∀ (s : St) (oid : String),
        ∀ o' ∈ (markOpeningRevealed s oid).2.openings, o'.id = oid →
          o'.status = OpeningStatus.REVEALED) ∧
    (∀ (s : St) (oid : String),
        ∀ o' ∈ (handlePaymentFailed s oid).2.openings, o'.id = oid →
          o'.status = OpeningStatus.FAILED) ∧
    (∀ (s : St) (oid : String) (rand : Nat → Rat),
        ∀ o' ∈ (handlePaymentConfirmed s oid rand).2.openings, o'.id = oid →
          o'.status = OpeningStatus.PROCESSING ∨ o'.status = OpeningStatus.COMPLETED) := by
  refine ⟨?_, ?_, ?_, ?_⟩
  · intro s oid rand hp o ho o' ho' hid
    rcases assignItemToOpening_openings s oid rand with hsame | ⟨opening, hfind, hstat, hmap⟩
    · rw [hsame] at ho'
      exact Or.inl (congrArg OpeningRow.status (openingRow_eq_of_pairwise_ids hp ho' ho hid))
    · rw [hmap] at ho'
      rcases List.mem_map.mp ho' with ⟨u, hu, hueq⟩
      have huid : u.id = o.id := by
        by_cases hc : u.id = opening.id
        · rw [if_pos hc] at hueq
          rw [← hueq] at hid
          exact hid
        · rw [if_neg hc] at hueq
          rw [← hueq] at hid
          exact hid
      have huo : u = o := openingRow_eq_of_pairwise_ids hp hu ho huid
      subst huo
      by_cases hc : u.id = opening.id
      · have hop : opening ∈ s.openings := List.mem_of_find?_eq_some hfind
        have huop : u = opening := openingRow_eq_of_pairwise_ids hp hu hop hc
        rw [if_pos hc] at hueq
        exact Or.inr ⟨huop ▸ hstat, by rw [← hueq]⟩
      · rw [if_neg hc] at hueq
        exact Or.inl (by rw [← hueq])
  · intro s oid o' ho' hid
    unfold markOpeningRevealed at ho'
    rcases hfind : findOpening s oid with _ | u
    · rw [hfind] at ho'
      dsimp only at ho'
      have := List.find?_eq_none.mp hfind o' ho'
      simp [hid] at this
    · rw [hfind] at ho'
      dsimp only [updateOpeningStatus] at ho'
      rcases List.mem_map.mp ho' with ⟨v, hv, hveq⟩
      by_cases hc : v.id = oid
      · rw [if_pos hc] at hveq
        rw [← hveq]
      · rw [if_neg hc] at hveq
        rw [← hveq] at hid
        exact absurd hid hc
  · intro s oid o' ho' hid
    unfold handlePaymentFailed at ho'
    rcases hfind : findOpening s oid with _ | u
    · rw [hfind] at ho'
      dsimp only at ho'
      have := List.find?_eq_none.mp hfind o' ho'
      simp [hid] at this
    · rw [hfind] at ho'
      dsimp only [updateOpeningStatus] at ho'
      rcases List.mem_map.mp ho' with ⟨v, hv, hveq⟩
      by_cases hc : v.id = oid
      · rw [if_pos hc] at hveq
        rw [← hveq]
      · rw [if_neg hc] at hveq
        rw [← hveq] at hid
        exact absurd hid hc
  · intro s oid rand o' ho' hid
    unfold handlePaymentConfirmed at ho'
    rcases hfind : findOpening s oid with _ | u
    · rw [hfind] at ho'
      dsimp only at ho'
      have := List.find?_eq_none.mp hfind o' ho'
      simp [hid] at this
    · rw [hfind] at ho'
      dsimp only at ho'
      rcases assignItemToOpening_openings
          (updateOpeningStatus s oid OpeningStatus.PROCESSING) oid rand with hsame |
          ⟨opening, hfind2, _, hmap⟩
      · rw [hsame] at ho'
        dsimp only [updateOpeningStatus] at ho'
        rcases List.mem_map.mp ho' with ⟨v, hv, hveq⟩
        by_cases hc : v.id = oid
        · rw [if_pos hc] at hveq
          exact Or.inl (by rw [← hveq])
        · rw [if_neg hc] at hveq
          rw [← hveq] at hid
          exact absurd hid hc
      · have hopid : opening.id = oid := by
          have := List.find?_some hfind2
          simpa using this
        rw [hmap] at ho'
        rcases List.mem_map.mp ho' with ⟨v, hv, hveq⟩
        by_cases hc : v.id = opening.id
        · rw [if_pos hc] at hveq
          exact Or.inr (by rw [← hveq])
        · rw [if_neg hc] at hveq
          dsimp only [updateOpeningStatus] at hv
          rcases List.mem_map.mp hv with ⟨w, hw, hweq⟩
          by_cases hc2 : w.id = oid
          · rw [if_pos hc2] at hweq
            exact Or.inl (by rw [← hveq, ← hweq])
          · rw [if_neg hc2] at hweq
            rw [← hveq] at hid
            rw [← hweq] at hid
            exact absurd hid hc2

theorem opening_transitions_amended_witness :
    ({ id := "o2", userId := "u1", packProductId := "p1",
       status := OpeningStatus.REVEALED } : OpeningRow).status = OpeningStatus.REVEALED :=
  opening_transitions_amended.2.1 stFailedOpening "o2"
    ⟨"o2", "u1", "p1", OpeningStatus.REVEALED⟩ (by decide) rfl

/-! ## C5: the in-lock re-check reads the cache -/

/-- A pack that is live-unsellable: guarantee of 1 `t1` per remaining pack,
5 packs remaining, zero available items. -/
def packNoStock : PackRow :=
  { id := "p1", maxSupply := some 5, soldCount := 0, status := PackStatus.ACTIVE,
    config := some { guarantees := [⟨"t1", 1, "T1"⟩], tierWeights := [] },
    poolItemIds := [] }

/-- Ledger with `packNoStock` and no items; no cache entry. -/
def stNoStock : St :=
  { tiers := [⟨"t1", "T1"⟩], items := [], packs := [packNoStock], openings := [],
    assignments := [], holdings := [], reservations := [], healthCache := [] }

/-- A stale cached health entry claiming the pack is sellable. -/
def staleHealthy : PackHealth :=
  { packProductId := "p1", status := PackHealthStatus.SELLABLE, remainingPacks := 5,
    maxSupply := some 5, soldCount := 0, tierHealth := [], canSellOne := true,
    warnings := [] }

/-- The same ledger with the stale cache entry present. -/
def stNoStockCached : St :=
  { stNoStock with healthCache := [(healthCacheKey "p1", staleHealthy)] }

/-- C5.  The claim says the in-lock `canSellPack` re-check decides against
live inventory counts, unaffected by any cached health entry.  In the code
`canSellPack` goes through `calculatePackHealth`, which returns the cached
value when one exists: on the same ledger (identical items and packs), the
decision is `true` with the stale cache entry present and `false` without it
— the cache determines the allow/deny decision. -/
theorem cache_determines_canSellPack :
    (canSellPack stNoStockCached "p1").1 = .ok true ∧
    (canSellPack stNoStock "p1").1 = .ok false ∧
    stNoStockCached.items = stNoStock.items ∧
    stNoStockCached.packs = stNoStock.packs := by
  exact ⟨rfl, rfl, rfl, rfl⟩

/-! ## C4: the already-assigned precondition is dead -/

/-- Opening `o1`, already PROCESSING. -/
def openingO1 : OpeningRow :=
  { id := "o1", userId := "u1", packProductId := "p1", status := OpeningStatus.PROCESSING }

/-- An unlimited pack with an empty config whose pool holds `x1` (ASSIGNED)
and `y1` (AVAILABLE). -/
def packFree : PackRow :=
  { id := "p1", maxSupply := none, soldCount := 1, status := PackStatus.ACTIVE,
    config := some ⟨[], []⟩, poolItemIds := ["x1", "y1"] }

/-- A state in which opening `o1` is PROCESSING and already has an
Assignment (to item `x1`) — reachable by `handlePaymentConfirmed` on a
COMPLETED opening, which unconditionally resets it to PROCESSING. -/
def stAlreadyAssigned : St :=
  { tiers := [⟨"t1", "T1"⟩],
    items := [{ id := "x1", tierId := "t1", status := ItemStatus.ASSIGNED, estimatedValue := 10 },
              { id := "y1", tierId := "t1", status := ItemStatus.AVAILABLE, estimatedValue := 20 }],
    packs := [packFree],
    openings := [openingO1],
    assignments := [{ id := "a1", openingId := "o1", itemId := "x1",
                      valueAtAssignment := 10, tierAtAssignment := "T1" }],
    holdings := [{ userId := "u1", itemId := "x1", assignmentId := "a1",
                   status := HoldingStatus.HOLDING }],
    reservations := [], healthCache := [] }

/-- C4.  The claim says `assignItemToOpening` fails fast — before the lock —
whenever the opening already has a prior Assignment.  The `findUnique`
include omits `assignment`, so the guard reads `undefined` and can never
fire: no run ever fails with the precondition error, and on a PROCESSING
opening that already has an Assignment the call instead proceeds through the
lock, the health re-check and the selection, failing only inside the
transaction on the Assignment uniqueness constraint. -/
theorem already_assigned_precondition_dead :
    (∀ (s : St) (oid : String) (rand : Nat → Rat),
        (assignItemToOpening s oid rand).1 ≠ .error .openingAlreadyAssigned) ∧
    (assignItemToOpening stAlreadyAssigned "o1" (fun _ => 0)).1 =
      .error .assignmentExists := by
  constructor
  · intro s oid rand hcontra
    have haux : ∀ p, assignItemToOpening s oid rand = p →
        p.1 ≠ (.error .openingAlreadyAssigned : Except AssignErr PackOpeningResult) := by
      intro p h
      unfold assignItemToOpening at h
      split at h
      · rw [← h]
        simp
      · split at h
        · split at h
          · rw [← h]
            simp
          · split at h
            · rename_i _ e s1 hcs
              have he : e = .packNotFound _ := canSellPack_error_shape (by rw [hcs])
              subst he
              rw [← h]
              simp
            · rename_i _ canSell s1 hcs
              split at h
              · split at h
                · rename_i e hsel
                  have he : e = .noConfiguration := selectItemFromPool_error_shape hsel
                  subst he
                  rw [← h]
                  simp
                · rw [← h]
                  simp
                · rename_i _ selectedItem hsel
                  split at h
                  · rename_i e htx
                    have he := assignTx_error_shape htx
                    rw [← h]
                    rcases he with ⟨iid, he⟩ | ⟨tid, he⟩ | he <;> subst he <;> simp
                  · rename_i _ s2 result htx
                    dsimp only at h
                    split at h
                    · rename_i hup
                      exact absurd hup (by simp)
                    · split at h
                      · rename_i _ e5 s5 hup
                        have he : e5 = .packNotFound _ :=
                          updatePackStatusFromHealth_error_shape (by rw [hup])
                        subst he
                        rw [← h]
                        simp
                      · rw [← h]
                        simp
              · rw [← h]
                simp
        · rw [← h]
          simp
    exact haux _ rfl hcontra
  · with_unfolding_all rfl

/-! ## C3: in-lock failures leave the ledger untouched -/

theorem assignItemToOpening_error_eqLedger_aux {s : St} {oid : String}
    {rand : Nat → Rat} {p : Except AssignErr PackOpeningResult × St}
    (h : assignItemToOpening s oid rand = p) {e : AssignErr} (he1 : p.1 = .error e)
    (he : e = .packOutOfStock ∨ e = .noAvailableItems ∨
      ∃ iid, e = .itemNoLongerAvailable iid) :
    EqLedger p.2 s := by
  unfold assignItemToOpening at h
  split at h
  · rw [← h]
    exact eqLedger_refl s
  · split at h
    · split at h
      · rw [← h]
        exact eqLedger_refl s
      · rename_i _ pack hpack
        split at h
        · rename_i _ e' s1 hcs
          have he' : e' = .packNotFound _ := canSellPack_error_shape (by rw [hcs])
          rw [← h] at he1
          simp at he1
          rw [he1] at he'
          rcases he with h1 | h1 | ⟨iid, h1⟩ <;> rw [h1] at he' <;> simp at he'
        · rename_i _ canSell s1 hcs
          have hs1 : EqLedger s1 s := by
            have := canSellPack_snd_eqLedger s pack.id
            rw [hcs] at this
            exact this
          split at h
          · split at h
            · rename_i e' hsel
              have he' : e' = .noConfiguration := selectItemFromPool_error_shape hsel
              rw [← h] at he1
              simp at he1
              rw [he1] at he'
              rcases he with h1 | h1 | ⟨iid, h1⟩ <;> rw [h1] at he' <;> simp at he'
            · rw [← h]
              exact hs1
            · rename_i _ selectedItem hsel
              split at h
              · rw [← h]
                exact hs1
              · rename_i _ s2 result htx
                dsimp only at h
                split at h
                · rename_i hup
                  exact absurd hup (by simp)
                · split at h
                  · rename_i _ e5 s5 hup
                    have he' : e5 = .packNotFound _ :=
                      updatePackStatusFromHealth_error_shape (by rw [hup])
                    rw [← h] at he1
                    simp only [Except.error.injEq] at he1
                    rw [he1] at he'
                    rcases he with h1 | h1 | ⟨iid, h1⟩ <;> rw [h1] at he' <;> simp at he'
                  · rw [← h] at he1
                    simp at he1
          · rw [← h]
            exact hs1
    · rw [← h]
      exact eqLedger_refl s

/-- C3.  Whenever `assignItemToOpening` fails after entering the lock with
one of the three in-lock failures — the re-checked `canSellPack` reports
stock-out, the available pool is empty, or the candidate item is no longer
AVAILABLE inside the transaction — no ledger write takes effect: items,
openings, assignments, holdings and packs (hence every item status, the
opening status and `soldCount`) are exactly as before the call. -/
theorem assignment_failure_rolls_back (s : St) (oid : String) (rand : Nat → Rat)
    (e : AssignErr)
    (h : (assignItemToOpening s oid rand).1 = .error e)
    (he : e = .packOutOfStock ∨ e = .noAvailableItems ∨
      ∃ iid, e = .itemNoLongerAvailable iid) :
    (assignItemToOpening s oid rand).2.items = s.items ∧
    (assignItemToOpening s oid rand).2.openings = s.openings ∧
    (assignItemToOpening s oid rand).2.assignments = s.assignments ∧
    (assignItemToOpening s oid rand).2.holdings = s.holdings ∧
    (assignItemToOpening s oid rand).2.packs = s.packs := by
  have hl := assignItemToOpening_error_eqLedger_aux rfl h he
  exact ⟨hl.1, hl.2.2.1, hl.2.2.2.1, hl.2.2.2.2.1, hl.2.1⟩

/-- The stock-out state of C5 with a PROCESSING opening for the pack. -/
def stStockoutOpening : St := { stNoStock with openings := [openingO1] }

theorem assignment_failure_rolls_back_witness :
    (assignItemToOpening stStockoutOpening "o1" (fun _ => 0)).2.items =
        stStockoutOpening.items ∧
    (assignItemToOpening stStockoutOpening "o1" (fun _ => 0)).2.openings =
        stStockoutOpening.openings ∧
    (assignItemToOpening stStockoutOpening "o1" (fun _ => 0)).2.assignments =
        stStockoutOpening.assignments ∧
    (assignItemToOpening stStockoutOpening "o1" (fun _ => 0)).2.holdings =
        stStockoutOpening.holdings ∧
    (assignItemToOpening stStockoutOpening "o1" (fun _ => 0)).2.packs =
        stStockoutOpening.packs :=
  assignment_failure_rolls_back stStockoutOpening "o1" (fun _ => 0)
    .packOutOfStock rfl (Or.inl rfl)

/-! ## C2: no item ever has two assignments -/

/-- Number of Assignment rows referencing an item. -/
def assignCount (s : St) (itemId : String) : Nat :=
  (s.assignments.filter (fun a => a.itemId = itemId)).length

/-- The inductive invariant: at most one assignment per item, assigned items
never AVAILABLE, reserved (reservation-keyed) items are RESERVED, unassigned,
and distinct per key. -/
structure Inv (s : St) : Prop where
  once : ∀ iid, assignCount s iid ≤ 1
  assignedNotAvailable : ∀ a ∈ s.assignments, ∀ it ∈ s.items,
    it.id = a.itemId → it.status ≠ ItemStatus.AVAILABLE
  reservedUnassigned : ∀ r ∈ s.reservations, ∀ a ∈ s.assignments, a.itemId ≠ r.itemId
  reservedStatus : ∀ r ∈ s.reservations, ∀ it ∈ s.items,
    it.id = r.itemId → it.status = ItemStatus.RESERVED
  reservedDistinct : s.reservations.Pairwise (fun r1 r2 => r1.itemId ≠ r2.itemId)

theorem inv_of_triple_eq {s t : St} (h1 : s.items = t.items)
    (h2 : s.assignments = t.assignments) (h3 : s.reservations = t.reservations)
    (hi : Inv t) : Inv s := by
  refine ⟨?_, ?_, ?_, ?_, ?_⟩
  · intro iid
    have : assignCount s iid = assignCount t iid := by
      unfold assignCount
      rw [h2]
    rw [this]
    exact hi.once iid
  · rw [h1, h2]
    exact hi.assignedNotAvailable
  · rw [h2, h3]
    exact hi.reservedUnassigned
  · rw [h1, h3]
    exact hi.reservedStatus
  · rw [h3]
    exact hi.reservedDistinct

theorem inv_of_eqLedger {s t : St} (h : EqLedger s t) (hi : Inv t) : Inv s :=
  inv_of_triple_eq h.1 h.2.2.2.1 h.2.2.2.2.2 hi

theorem inv_of_eqNonPack {s t : St} (h : EqNonPack s t) (hi : Inv t) : Inv s :=
  inv_of_triple_eq h.1 h.2.2.1 h.2.2.2.2 hi

/-- Shape of membership in an item-status update. -/
theorem mem_update_shape {items : List ItemRow} {iid : String} {st : ItemStatus}
    {it' : ItemRow}
    (h : it' ∈ items.map (fun it => if it.id = iid then { it with status := st } else it)) :
    ∃ u ∈ items, ((u.id = iid ∧ it' = { u with status := st }) ∨ (¬ u.id = iid ∧ it' = u)) := by
  rcases List.mem_map.mp h with ⟨u, hu, hueq⟩
  by_cases hc : u.id = iid
  · exact ⟨u, hu, Or.inl ⟨hc, by rw [← hueq, if_pos hc]⟩⟩
  · exact ⟨u, hu, Or.inr ⟨hc, by rw [← hueq, if_neg hc]⟩⟩

/-- An AVAILABLE item row has no assignment pointing at it. -/
theorem no_assignment_of_available {s : St} (hi : Inv s) {item : ItemRow}
    (hmem : item ∈ s.items) (hav : item.status = ItemStatus.AVAILABLE) :
    ∀ a ∈ s.assignments, a.itemId ≠ item.id := by
  intro a ha hcontra
  exact hi.assignedNotAvailable a ha item hmem hcontra.symm hav

/-- An AVAILABLE item row is not reservation-keyed. -/
theorem no_reservation_of_available {s : St} (hi : Inv s) {item : ItemRow}
    (hmem : item ∈ s.items) (hav : item.status = ItemStatus.AVAILABLE) :
    ∀ r ∈ s.reservations, r.itemId ≠ item.id := by
  intro r hr hcontra
  have := hi.reservedStatus r hr item hmem hcontra.symm
  rw [hav] at this
  exact absurd this (by simp)

theorem inv_assignTx {s : St} {opening : OpeningRow} {pid sel : String} {s' : St}
    {res : PackOpeningResult} (hi : Inv s)
    (h : assignTx s opening pid sel = .ok (s', res)) : Inv s' := by
  have hshape : ∃ item, findItem s sel = some item ∧ item.status = ItemStatus.AVAILABLE ∧
      s'.items = s.items.map
        (fun it => if it.id = item.id then { it with status := ItemStatus.ASSIGNED } else it) ∧
      (∃ asg : AssignmentRow, asg.itemId = item.id ∧
        s'.assignments = asg :: s.assignments) ∧
      s'.reservations = s.reservations := by
    unfold assignTx at h
    split at h
    · exact absurd h (by simp)
    · rename_i item hfind
      split at h
      · rename_i hav
        split at h
        · exact absurd h (by simp)
        · rename_i tier htier
          dsimp only at h
          split at h
          · exact absurd h (by simp)
          · simp only [Except.ok.injEq, Prod.mk.injEq] at h
            refine ⟨item, hfind, hav, ?_,
              ⟨{ id := String.append "asg-" opening.id, openingId := opening.id,
                 itemId := item.id, valueAtAssignment := item.estimatedValue,
                 tierAtAssignment := tier.name }, rfl, ?_⟩, ?_⟩
            · rw [← h.1]
              rfl
            · rw [← h.1]
              rfl
            · rw [← h.1]
              rfl
      · exact absurd h (by simp)
  obtain ⟨item, hfind, hav, hitems, ⟨asg, hasgid, hasgs⟩, hrsv⟩ := hshape
  have hmem : item ∈ s.items := List.mem_of_find?_eq_some hfind
  have hnoasg := no_assignment_of_available hi hmem hav
  have hnores := no_reservation_of_available hi hmem hav
  refine ⟨?_, ?_, ?_, ?_, ?_⟩
  · intro iid
    unfold assignCount
    rw [hasgs, List.filter_cons]
    by_cases hc : asg.itemId = iid
    · have hnil : s.assignments.filter (fun a => a.itemId = iid) = [] := by
        rw [List.filter_eq_nil_iff]
        intro a ha
        simp only [decide_eq_true_eq]
        rw [← hc]
        intro hcontra
        exact hnoasg a ha (hcontra.trans hasgid)
      simp [hc, hnil]
    · have := hi.once iid
      unfold assignCount at this
      simp [hc]
      exact this
  · intro a ha it' hit' hid
    rw [hitems] at hit'
    rcases mem_update_shape hit' with ⟨u, hu, ⟨hcu, hequ⟩ | ⟨hcu, hequ⟩⟩
    · rw [hequ]
      simp
    · rw [hasgs] at ha
      rcases List.mem_cons.mp ha with rfl | ha'
      · rw [hequ] at hid
        rw [hid, hasgid] at hcu
        exact absurd rfl hcu
      · rw [hequ] at hid ⊢
        exact hi.assignedNotAvailable a ha' u hu hid
  · intro r hr a ha
    rw [hrsv] at hr
    rw [hasgs] at ha
    rcases List.mem_cons.mp ha with rfl | ha'
    · rw [hasgid]
      intro hcontra
      exact hnores r hr hcontra.symm
    · exact hi.reservedUnassigned r hr a ha'
  · intro r hr it' hit' hid
    rw [hrsv] at hr
    rw [hitems] at hit'
    rcases mem_update_shape hit' with ⟨u, hu, ⟨hcu, hequ⟩ | ⟨hcu, hequ⟩⟩
    · rw [hequ] at hid
      exact absurd (hid.symm.trans hcu) (hnores r hr)
    · rw [hequ] at hid ⊢
      exact hi.reservedStatus r hr u hu hid
  · rw [hrsv]
    exact hi.reservedDistinct

theorem inv_assignItemToOpening_aux {s : St} {oid : String} {rand : Nat → Rat}
    {p : Except AssignErr PackOpeningResult × St}
    (h : assignItemToOpening s oid rand = p) (hi : Inv s) : Inv p.2 := by
  unfold assignItemToOpening at h
  split at h
  · rw [← h]
    exact hi
  · split at h
    · split at h
      · rw [← h]
        exact hi
      · rename_i _ pack hpack
        split at h
        · rename_i _ e' s1 hcs
          have hs1 : EqLedger s1 s := by
            have := canSellPack_snd_eqLedger s pack.id
            rw [hcs] at this
            exact this
          rw [← h]
          exact inv_of_eqLedger hs1 hi
        · rename_i _ canSell s1 hcs
          have hs1 : EqLedger s1 s := by
            have := canSellPack_snd_eqLedger s pack.id
            rw [hcs] at this
            exact this
          have hi1 : Inv s1 := inv_of_eqLedger hs1 hi
          split at h
          · split at h
            · rw [← h]
              exact hi1
            · rw [← h]
              exact hi1
            · rename_i _ selectedItem hsel
              split at h
              · rw [← h]
                exact hi1
              · rename_i _ s2 result htx
                have hi2 : Inv s2 := inv_assignTx hi1 htx
                dsimp only at h
                split at h
                · rename_i hup
                  exact absurd hup (by simp)
                · have hi4 : Inv (invalidatePackHealthForItem
                      (invalidatePackHealth s2 pack.id) selectedItem.id) :=
                    inv_of_eqLedger
                      (eqLedger_trans (invalidatePackHealthForItem_eqLedger _ _)
                        (invalidatePackHealth_eqLedger _ _)) hi2
                  split at h
                  · rename_i _ e5 s5 hup
                    have hnp : EqNonPack s5 (invalidatePackHealthForItem
                        (invalidatePackHealth s2 pack.id) selectedItem.id) := by
                      have := updatePackStatusFromHealth_snd_eqNonPack
                        (invalidatePackHealthForItem (invalidatePackHealth s2 pack.id)
                          selectedItem.id) pack.id
                      rw [hup] at this
                      exact this
                    rw [← h]
                    exact inv_of_eqNonPack hnp hi4
                  · rename_i _ v5 s5 hup
                    have hnp : EqNonPack s5 (invalidatePackHealthForItem
                        (invalidatePackHealth s2 pack.id) selectedItem.id) := by
                      have := updatePackStatusFromHealth_snd_eqNonPack
                        (invalidatePackHealthForItem (invalidatePackHealth s2 pack.id)
                          selectedItem.id) pack.id
                      rw [hup] at this
                      exact this
                    rw [← h]
                    exact inv_of_eqNonPack hnp hi4
          · rw [← h]
            exact hi1
    · rw [← h]
      exact hi

theorem inv_assignItemToOpening (s : St) (oid : String) (rand : Nat → Rat)
    (hi : Inv s) : Inv (assignItemToOpening s oid rand).2 :=
  inv_assignItemToOpening_aux rfl hi

theorem inv_reserveItemForCheckout (s : St) (pid sid : String) (hi : Inv s) :
    Inv (reserveItemForCheckout s pid sid).2 := by
  have haux : ∀ p, reserveItemForCheckout s pid sid = p → Inv p.2 := by
    intro p h
    unfold reserveItemForCheckout at h
    split at h
    · rw [← h]
      exact hi
    · rename_i item hfind
      have hpred := List.find?_some hfind
      simp only [Bool.and_eq_true, decide_eq_true_eq] at hpred
      have hav : item.status = ItemStatus.AVAILABLE := hpred.2
      have hmem : item ∈ s.items := List.mem_of_find?_eq_some hfind
      have hnoasg := no_assignment_of_available hi hmem hav
      have hnores := no_reservation_of_available hi hmem hav
      rw [← h]
      refine ⟨?_, ?_, ?_, ?_, ?_⟩
      · intro iid
        exact hi.once iid
      · intro a ha it' hit' hid
        rcases mem_update_shape hit' with ⟨u, hu, ⟨hcu, hequ⟩ | ⟨hcu, hequ⟩⟩
        · rw [hequ]
          simp
        · rw [hequ] at hid ⊢
          exact hi.assignedNotAvailable a ha u hu hid
      · intro r hr a ha
        rcases List.mem_cons.mp hr with rfl | hr'
        · intro hcontra
          exact hnoasg a ha hcontra
        · exact hi.reservedUnassigned r (List.mem_of_mem_filter hr') a ha
      · intro r hr it' hit' hid
        rcases List.mem_cons.mp hr with rfl | hr'
        · rcases mem_update_shape hit' with ⟨u, hu, ⟨hcu, hequ⟩ | ⟨hcu, hequ⟩⟩
          · rw [hequ]
          · rw [hequ] at hid
            exact absurd (hid.trans rfl) (by simpa using fun hx => hcu hx)
        · have hr2 : r ∈ s.reservations := List.mem_of_mem_filter hr'
          rcases mem_update_shape hit' with ⟨u, hu, ⟨hcu, hequ⟩ | ⟨hcu, hequ⟩⟩
          · rw [hequ] at hid
            exact absurd (hid.symm.trans hcu) (hnores r hr2)
          · rw [hequ] at hid ⊢
            exact hi.reservedStatus r hr2 u hu hid
      · refine List.Pairwise.cons ?_ ?_
        · intro q hq
          have hq2 : q ∈ s.reservations := List.mem_of_mem_filter hq
          exact fun hx => hnores q hq2 hx.symm
        · exact List.Pairwise.sublist (List.filter_sublist _) hi.reservedDistinct
  exact haux _ rfl

theorem reservation_find_mem_itemId {s : St} (hi : Inv s) {sid : String} {r : Reservation}
    (hfind : s.reservations.find? (fun q => q.sessionId = sid) = some r) :
    ∀ q ∈ s.reservations, q.sessionId ≠ sid → q.itemId ≠ r.itemId := by
  intro q hq hqs
  have hrmem : r ∈ s.reservations := List.mem_of_find?_eq_some hfind
  have hrs : r.sessionId = sid := by
    have := List.find?_some hfind
    simpa using this
  have hqr : q ≠ r := by
    intro hqe
    rw [hqe] at hqs
    exact hqs hrs
  exact hi.reservedDistinct.forall (fun a b hab => fun e => hab e.symm) hq hrmem hqr

theorem inv_releaseReservation (s : St) (sid : String) (hi : Inv s) :
    Inv (releaseReservation s sid).2 := by
  have haux : ∀ p, releaseReservation s sid = p → Inv p.2 := by
    intro p h
    unfold releaseReservation at h
    split at h
    · rw [← h]
      exact hi
    · rename_i r hfind
      split at h
      · rw [← h]
        exact hi
      · rw [← h]
        have hnoasg : ∀ a ∈ s.assignments, a.itemId ≠ r.itemId := by
          intro a ha
          exact hi.reservedUnassigned r (List.mem_of_find?_eq_some hfind) a ha
        refine ⟨?_, ?_, ?_, ?_, ?_⟩
        · intro iid
          exact hi.once iid
        · intro a ha it' hit' hid
          rcases mem_update_shape hit' with ⟨u, hu, ⟨hcu, hequ⟩ | ⟨hcu, hequ⟩⟩
          · rw [hequ] at hid
            exact absurd (hid.symm.trans hcu) (hnoasg a ha)
          · rw [hequ] at hid ⊢
            exact hi.assignedNotAvailable a ha u hu hid
        · intro q hq a ha
          exact hi.reservedUnassigned q (List.mem_of_mem_filter hq) a ha
        · intro q hq it' hit' hid
          have hq2 : q ∈ s.reservations := List.mem_of_mem_filter hq
          have hqs : q.sessionId ≠ sid := by
            have := List.mem_filter.mp hq
            simpa using this.2
          have hqr := reservation_find_mem_itemId hi hfind q hq2 hqs
          rcases mem_update_shape hit' with ⟨u, hu, ⟨hcu, hequ⟩ | ⟨hcu, hequ⟩⟩
          · rw [hequ] at hid
            exact absurd (hid.symm.trans hcu) hqr
          · rw [hequ] at hid ⊢
            exact hi.reservedStatus q hq2 u hu hid
        · exact List.Pairwise.sublist (List.filter_sublist _) hi.reservedDistinct
  exact haux _ rfl

theorem inv_expireReservation (s : St) (sid : String) (hi : Inv s) :
    Inv (expireReservation s sid) := by
  refine ⟨?_, ?_, ?_, ?_, ?_⟩
  · intro iid
    exact hi.once iid
  · exact hi.assignedNotAvailable
  · intro r hr a ha
    exact hi.reservedUnassigned r (List.mem_of_mem_filter hr) a ha
  · intro r hr it' hit' hid
    exact hi.reservedStatus r (List.mem_of_mem_filter hr) it' hit' hid
  · exact List.Pairwise.sublist (List.filter_sublist _) hi.reservedDistinct

theorem inv_handlePaymentConfirmed (s : St) (oid : String) (rand : Nat → Rat)
    (hi : Inv s) : Inv (handlePaymentConfirmed s oid rand).2 := by
  have haux : ∀ p, handlePaymentConfirmed s oid rand = p → Inv p.2 := by
    intro p h
    unfold handlePaymentConfirmed at h
    split at h
    · rw [← h]
      exact hi
    · rw [← h]
      exact inv_assignItemToOpening _ oid rand
        (@inv_of_triple_eq (updateOpeningStatus s oid OpeningStatus.PROCESSING) s rfl rfl rfl hi)
  exact haux _ rfl

theorem inv_handlePaymentFailed (s : St) (oid : String) (hi : Inv s) :
    Inv (handlePaymentFailed s oid).2 := by
  have haux : ∀ p, handlePaymentFailed s oid = p → Inv p.2 := by
    intro p h
    unfold handlePaymentFailed at h
    split at h
    · rw [← h]
      exact hi
    · rw [← h]
      exact @inv_of_triple_eq (updateOpeningStatus s oid OpeningStatus.FAILED) s rfl rfl rfl hi
  exact haux _ rfl

theorem inv_markOpeningRevealed (s : St) (oid : String) (hi : Inv s) :
    Inv (markOpeningRevealed s oid).2 := by
  have haux : ∀ p, markOpeningRevealed s oid = p → Inv p.2 := by
    intro p h
    unfold markOpeningRevealed at h
    split at h
    · rw [← h]
      exact hi
    · rw [← h]
      exact @inv_of_triple_eq (updateOpeningStatus s oid OpeningStatus.REVEALED) s rfl rfl rfl hi
  exact haux _ rfl

/-- One invocation of an exported operation (with arbitrary arguments and
randomness), or a Redis TTL expiry. -/
inductive Step : St → St → Prop where
  | assign (s : St) (oid : String) (rand : Nat → Rat) :
      Step s (assignItemToOpening s oid rand).2
  | reserve (s : St) (pid sid : String) :
      Step s (reserveItemForCheckout s pid sid).2
  | release (s : St) (sid : String) :
      Step s (releaseReservation s sid).2
  | paymentConfirmed (s : St) (oid : String) (rand : Nat → Rat) :
      Step s (handlePaymentConfirmed s oid rand).2
  | paymentFailed (s : St) (oid : String) :
      Step s (handlePaymentFailed s oid).2
  | revealed (s : St) (oid : String) :
      Step s (markOpeningRevealed s oid).2
  | expireRes (s : St) (sid : String) :
      Step s (expireReservation s sid)
  | expireCache (s : St) (pid : String) :
      Step s (expireHealthCache s pid)

/-- Reflexive-transitive closure of `Step`. -/
inductive Reachable : St → St → Prop where
  | refl (s : St) : Reachable s s
  | step {s t u : St} : Reachable s t → Step t u → Reachable s u

theorem inv_step {s t : St} (h : Step s t) (hi : Inv s) : Inv t := by
  cases h with
  | assign oid rand => exact inv_assignItemToOpening s oid rand hi
  | reserve pid sid => exact inv_reserveItemForCheckout s pid sid hi
  | release sid => exact inv_releaseReservation s sid hi
  | paymentConfirmed oid rand => exact inv_handlePaymentConfirmed s oid rand hi
  | paymentFailed oid => exact inv_handlePaymentFailed s oid hi
  | revealed oid => exact inv_markOpeningRevealed s oid hi
  | expireRes sid => exact inv_expireReservation s sid hi
  | expireCache pid => exact inv_of_eqLedger (invalidatePackHealth_eqLedger s pid) hi

theorem inv_reachable {s t : St} (h : Reachable s t) (hi : Inv s) : Inv t := by
  induction h with
  | refl => exact hi
  | step _ hstep ih => exact inv_step hstep ih

/-- C2.  From any state with no Assignments and no reservations, every state
reachable by any sequence of the exported operations
(`assignItemToOpening`, `reserveItemForCheckout`, `releaseReservation`,
`handlePaymentConfirmed`, `handlePaymentFailed`, `markOpeningRevealed`, plus
TTL expiries) gives every Item at most one Assignment: an Assignment is
created only inside the transaction that re-verifies the Item is still
AVAILABLE and simultaneously flips it to ASSIGNED. -/
theorem no_item_has_two_assignments (s0 s : St)
    (hinitA : s0.assignments = []) (hinitR : s0.reservations = [])
    (hreach : Reachable s0 s) :
    ∀ itemId, assignCount s itemId ≤ 1 := by
  have hi0 : Inv s0 := by
    refine ⟨?_, ?_, ?_, ?_, ?_⟩
    · intro iid
      unfold assignCount
      rw [hinitA]
      simp
    · intro a ha
      rw [hinitA] at ha
      exact absurd ha (List.not_mem_nil a)
    · intro r hr
      rw [hinitR] at hr
      exact absurd hr (List.not_mem_nil r)
    · intro r hr
      rw [hinitR] at hr
      exact absurd hr (List.not_mem_nil r)
    · rw [hinitR]
      exact List.Pairwise.nil
  exact fun iid => (inv_reachable hreach hi0).once iid

theorem no_item_has_two_assignments_witness :
    assignCount stStockoutOpening "x1" ≤ 1 :=
  no_item_has_two_assignments stStockoutOpening stStockoutOpening rfl rfl
    (Reachable.refl _) "x1"

end Courtyard
